import Mathlib

/-!
Verification of the NCAA women's soccer roster scraper
(`src/wsoccer_roster_scraper.py`) against its specification.

The Python source is shallowly embedded: pure text-processing helpers
become Lean functions over `List Char` / `String`, regular expressions
are hand-translated to explicit scanners with the same leftmost /
greedy / alternation-order semantics, HTML access (BeautifulSoup) is
modelled by record structures holding exactly the element texts the
code reads, and network fetches are oracles `String → …` passed in as
parameters.  Floating-point percentage comparisons in the validator
are modelled by exact integer arithmetic (`count / total * 100 < k`
becomes `100 * count < k * total`), which agrees with the float
computation on all realistic roster sizes.
-/

namespace Soccer

/-! ## Python-style character and string utilities -/

/-- Python's `\s` / `str.strip()` whitespace class (ASCII part). -/
def pyWS (c : Char) : Bool :=
  c = ' ' || c = '\t' || c = '\n' || c = '\r' || c = '\x0b' || c = '\x0c'

/-- Python `str.strip()` on a character list. -/
def pyStrip (l : List Char) : List Char :=
  ((l.dropWhile pyWS).reverse.dropWhile pyWS).reverse

/-- Python `str.strip()` on a `String`. -/
def pyStripS (s : String) : String := String.mk (pyStrip s.toList)

/-- Python `str.lower()` (ASCII). -/
def lowerS (s : String) : String := String.mk (s.toList.map Char.toLower)

/-- Worker for `collapseWS`: the flag records whether the previous
character belonged to a whitespace run already emitted as one space. -/
def collapseWSGo : Bool → List Char → List Char
  | _, [] => []
  | inWS, c :: rest =>
    if pyWS c then
      if inWS then collapseWSGo true rest
      else ' ' :: collapseWSGo true rest
    else c :: collapseWSGo false rest

/-- Collapse every whitespace run to a single space: `re.sub(r"\s+", " ", ·)`. -/
def collapseWS (l : List Char) : List Char := collapseWSGo false l

/-- Substring test: `sub in hay` for Python strings. -/
def containsSub (sub : List Char) : List Char → Bool
  | [] => sub.isEmpty
  | c :: rest => sub.isPrefixOf (c :: rest) || containsSub sub rest

/-- Python `sub in hay` on `String`s. -/
def containsSubS (hay sub : String) : Bool := containsSub sub.toList hay.toList

/-- Python `str.split(sep)` for a single-character separator (keeps empty parts). -/
def splitOnChar (sep : Char) : List Char → List (List Char)
  | [] => [[]]
  | c :: rest =>
    if c = sep then [] :: splitOnChar sep rest
    else
      match splitOnChar sep rest with
      | [] => [[c]]
      | p :: ps => (c :: p) :: ps

/-- Worker for `replaceAll`, fueled by the text length (every step
consumes at least one character, so the fuel never runs out first). -/
def replaceAllGo (pat rep : List Char) : Nat → List Char → List Char
  | _, [] => []
  | 0, s => s
  | fuel + 1, c :: rest =>
    if pat ≠ [] ∧ pat.isPrefixOf (c :: rest) then
      rep ++ replaceAllGo pat rep fuel ((c :: rest).drop pat.length)
    else c :: replaceAllGo pat rep fuel rest

/-- Python `str.replace(pat, rep)` (all non-overlapping occurrences, left to right). -/
def replaceAll (pat rep s : List Char) : List Char := replaceAllGo pat rep s.length s

/-- Python `str.replace` on `String`s. -/
def replaceAllS (s pat rep : String) : String :=
  String.mk (replaceAll pat.toList rep.toList s.toList)

/-- Python `str.rstrip("/")`. -/
def rstripSlash (s : String) : String :=
  String.mk ((s.toList.reverse.dropWhile (· = '/')).reverse)

/-- Python `str.endswith(suf)`. -/
def pyEndsWith (s suf : String) : Bool := suf.toList.isSuffixOf s.toList

/-- Python `int(str)`: strip whitespace, optional sign, decimal digits. -/
def natOfDigits (cs : List Char) : Nat :=
  cs.foldl (fun n c => 10 * n + (c.toNat - '0'.toNat)) 0

/-- Python `int(str)` returning `none` where Python raises `ValueError`. -/
def intParse (s : String) : Option Int :=
  let cs := pyStrip s.toList
  let core : List Char × Int :=
    match cs with
    | '+' :: rest => (rest, 1)
    | '-' :: rest => (rest, -1)
    | rest => (rest, 1)
  if core.1 ≠ [] ∧ core.1.all Char.isDigit then
    some (core.2 * (natOfDigits core.1 : Int))
  else none

/-- Python `str(n)[-2:]`: the last two characters (whole string if shorter). -/
def last2 (s : String) : String := s.drop (s.length - 2)

/-! ## FieldExtractors.extract_position

The source matches the roster text against a large alternation of
position tokens wrapped in `\b … \b` (case-insensitive), taking the
leftmost match and, at a given position, the first alternative in the
written order; the matched token is uppercased and normalized to one
of GK/D/M/F.  If no token matches, a case-insensitive substring
fallback over full position words is applied. -/

/-- Python regex word character (`\w`, ASCII part). -/
def isWordChar (c : Char) : Bool := c.isAlphanum || c = '_'

/-- The alternation of position tokens, in the order written in the source regex. -/
def posTokens : List String :=
  ["GK", "G", "GOALKEEPER",
   "D", "DEF", "DF", "DEFENDER", "B", "BACK", "CB", "LB", "RB", "LCB", "RCB", "FB", "LWB", "RWB",
   "M", "MF", "MID", "MIDFIELDER", "CM", "CDM", "CAM", "DM", "AM", "LM", "RM",
   "F", "FW", "FOR", "FORWARD", "ST", "STRIKER", "A", "ATT", "ATTACKER", "W", "WING", "WINGER", "LW", "RW"]

/-- Case-insensitive test that `tok` begins the text `cs` (ASCII case folding). -/
def startsCI : List Char → List Char → Bool
  | _, [] => true
  | [], _ :: _ => false
  | c :: cs, t :: ts => (c.toUpper = t.toUpper) && startsCI cs ts

/-- Token match at the current position: the token begins here
(case-insensitively) and is followed by a word boundary. -/
def tokMatchesAt (cs : List Char) (tok : List Char) : Bool :=
  startsCI cs tok &&
    (match cs.drop tok.length with
     | [] => true
     | c :: _ => !isWordChar c)

/-- First alternative of the token alternation matching at this position. -/
def abbrevFindHere (cs : List Char) : Option String :=
  posTokens.find? (fun t => tokMatchesAt cs t.toList)

/-- Leftmost regex search for `\b(token-alternation)\b`; the boolean argument
records whether the previous character was a word character (for `\b`). -/
def abbrevScan : Bool → List Char → Option String
  | _, [] => none
  | prevW, c :: rest =>
    if prevW then abbrevScan (isWordChar c) rest
    else
      match abbrevFindHere (c :: rest) with
      | some t => some t
      | none => abbrevScan (isWordChar c) rest

/-- Normalization of the uppercased matched token to GK/D/M/F
(the if/elif chain of the source; unlisted standard forms pass through). -/
def posNormalize (pos : String) : String :=
  if pos ∈ (["GK", "G", "GOALKEEPER"] : List String) then "GK"
  else if pos ∈ (["DEF", "DF", "DEFENDER", "B", "BACK", "CB", "LB", "RB", "LCB", "RCB", "FB", "LWB", "RWB"] : List String) then "D"
  else if pos ∈ (["MID", "MF", "MIDFIELDER", "CM", "CDM", "CAM", "DM", "AM", "LM", "RM"] : List String) then "M"
  else if pos ∈ (["FOR", "FW", "FORWARD", "ST", "STRIKER", "A", "ATT", "ATTACKER", "W", "WING", "WINGER", "LW", "RW"] : List String) then "F"
  else pos

/-- The full-word substring fallback of `extract_position`, on the
already-uppercased text. -/
def posFallbackUp (up : List Char) : String :=
  if containsSub "GOALKEEPER".toList up || containsSub "GOALIE".toList up || containsSub "KEEPER".toList up then "GK"
  else if containsSub "DEFENDER".toList up || containsSub "DEFENCE".toList up || containsSub "DEFENSE".toList up || containsSub "BACK".toList up then "D"
  else if containsSub "MIDFIELDER".toList up || containsSub "MIDFIELD".toList up then "M"
  else if containsSub "FORWARD".toList up || containsSub "STRIKER".toList up || containsSub "ATTACKER".toList up || containsSub "ATTACK".toList up then "F"
  else ""

/-- The full-word substring fallback of `extract_position` (`text.upper()` pre-pass). -/
def posFallback (t : List Char) : String := posFallbackUp (t.map Char.toUpper)

/-- The full words probed by the substring fallback of `extract_position`. -/
def fallbackWords : List String :=
  ["GOALKEEPER", "GOALIE", "KEEPER", "DEFENDER", "DEFENCE", "DEFENSE", "BACK",
   "MIDFIELDER", "MIDFIELD", "FORWARD", "STRIKER", "ATTACKER", "ATTACK"]

/-- `FieldExtractors.extract_position`. -/
def extract_position (text : String) : String :=
  if text = "" then ""
  else
    match abbrevScan false (pyStrip text.toList) with
    | some tok => posNormalize tok
    | none => posFallback (pyStrip text.toList)

/-! ## FieldExtractors.normalize_academic_year -/

/-- The fixed abbreviation table of `normalize_academic_year`. -/
def yearMap : List (String × String) :=
  [("Fr", "Freshman"), ("Fr.", "Freshman"), ("FR", "Freshman"),
   ("So", "Sophomore"), ("So.", "Sophomore"), ("SO", "Sophomore"),
   ("Jr", "Junior"), ("Jr.", "Junior"), ("JR", "Junior"),
   ("Sr", "Senior"), ("Sr.", "Senior"), ("SR", "Senior"),
   ("Gr", "Graduate"), ("Gr.", "Graduate"), ("GR", "Graduate"),
   ("R-Fr", "Redshirt Freshman"), ("R-Fr.", "Redshirt Freshman"),
   ("R-So", "Redshirt Sophomore"), ("R-So.", "Redshirt Sophomore"),
   ("R-Jr", "Redshirt Junior"), ("R-Jr.", "Redshirt Junior"),
   ("R-Sr", "Redshirt Senior"), ("R-Sr.", "Redshirt Senior"),
   ("1st", "Freshman"), ("First", "Freshman"),
   ("2nd", "Sophomore"), ("Second", "Sophomore"),
   ("3rd", "Junior"), ("Third", "Junior"),
   ("4th", "Senior"), ("Fourth", "Senior")]

/-- `FieldExtractors.normalize_academic_year`: table lookup on the trimmed
input, pass-through otherwise. -/
def normalize_academic_year (year_text : String) : String :=
  if year_text = "" then ""
  else
    match yearMap.lookup (pyStripS year_text) with
    | some v => v
    | none => year_text

/-! ## Noise stripping (the `\s*(lit|…).*$` substitutions)

`re.sub(r"\s*(lit|…).*$", "", text)` without MULTILINE/DOTALL: a match
starts at the leftmost position from which a whitespace run reaches one
of the literals, and requires everything after the literal to contain
no newline except possibly a single trailing one (which survives the
substitution). -/

/-- The `$`-side condition: the text after the literal may contain no
newline, except as its own final character. -/
def noiseTailOK (aft : List Char) : Bool :=
  !aft.contains '\n' || (aft.getLast? = some '\n' && !aft.dropLast.contains '\n')

/-- Attempt a noise match starting exactly at this position; on success
returns the characters surviving after the substitution (at most a
trailing newline). -/
def noiseHit (lits : List (List Char)) (s : List Char) : Option (List Char) :=
  let t := s.dropWhile pyWS
  match lits.find? (fun L => L.isPrefixOf t) with
  | some L =>
    let aft := t.drop L.length
    if noiseTailOK aft then some (if aft.contains '\n' then ['\n'] else []) else none
  | none => none

/-- The full substitution: cut the text at the leftmost noise match. -/
def noiseCut (lits : List (List Char)) : List Char → List Char
  | [] => []
  | c :: rest =>
    match noiseHit lits (c :: rest) with
    | some keep => keep
    | none => c :: noiseCut lits rest

/-! ## FieldExtractors.parse_hometown_school -/

/-- Parsed hometown / school fields. -/
structure HometownInfo where
  hometown : String
  high_school : String
  previous_school : String
deriving Repr, DecidableEq

/-- Noise literals stripped by `parse_hometown_school`. -/
def noiseLits2 : List (List Char) :=
  ["Instagram".toList, "Twitter".toList, "Opens in a new window".toList]

/-- College indicators used to classify the second `/`-segment. -/
def collegeIndicators : List String := ["University", "College", "State", "Tech", "Institute"]

/-- Whether a segment contains a college-indicator keyword (case-sensitive `in`). -/
def hasCollegeIndicator (s : String) : Bool :=
  collegeIndicators.any (fun ind => containsSubS s ind)

/-- The cleaning pre-pass of `parse_hometown_school`: noise strip, then
whitespace collapse, then strip. -/
def phsClean (text : String) : List Char :=
  pyStrip (collapseWS (noiseCut noiseLits2 text.toList))

/-- `FieldExtractors.parse_hometown_school`. -/
def parse_hometown_school (text : String) : HometownInfo :=
  if text = "" then ⟨"", "", ""⟩
  else if (phsClean text).contains '/' then
    let parts := (splitOnChar '/' (phsClean text)).map (fun p => String.mk (pyStrip p))
    let p1 := parts.getD 1 ""
    let hs_prev : String × String :=
      if 1 < parts.length then
        if hasCollegeIndicator p1 then ("", p1) else (p1, "")
      else ("", "")
    ⟨parts.getD 0 "", hs_prev.1, if 2 < parts.length then parts.getD 2 "" else hs_prev.2⟩
  else ⟨String.mk (phsClean text), "", ""⟩

/-! ## FieldExtractors.extract_height

The five patterns are tried in order; each is translated as a matcher
`List Char → Option (List Char)` returning the matched group at the
current position, wrapped in a leftmost-position search.  Greedy
quantifiers followed by a character of a disjoint class need no
backtracking, so each matcher is deterministic. -/

/-- Greedy `\d+` at the current position: (digits, rest). -/
def takeDigits (l : List Char) : List Char × List Char :=
  (l.takeWhile Char.isDigit, l.dropWhile Char.isDigit)

/-- Greedy `\s*` at the current position: (whitespace, rest). -/
def takeWScs (l : List Char) : List Char × List Char :=
  (l.takeWhile pyWS, l.dropWhile pyWS)

/-- The character class `['′]` (foot mark). -/
def isQuote1 (c : Char) : Bool := c = '\'' || c = '′'

/-- The character class `["″']` (inch mark). -/
def isQuote2 (c : Char) : Bool := c = '"' || c = '″' || c = '\''

/-- Greedy `["″']{1,2}`: up to two inch-mark characters. -/
def takeQuotes : List Char → List Char × List Char
  | [] => ([], [])
  | [c1] => if isQuote2 c1 then ([c1], []) else ([], [c1])
  | c1 :: c2 :: rest =>
    if isQuote2 c1 then
      if isQuote2 c2 then ([c1, c2], rest) else ([c1], c2 :: rest)
    else ([], c1 :: c2 :: rest)

/-- The optional metric tail `\s*/\s*\d+\.\d+m`: (consumed, rest). -/
def metricTail (l : List Char) : Option (List Char × List Char) :=
  let w1 := (takeWScs l).1
  match (takeWScs l).2 with
  | s :: r2 =>
    if s = '/' then
      let w2 := (takeWScs r2).1
      let r3 := (takeWScs r2).2
      let d1 := (takeDigits r3).1
      if d1 = [] then none
      else
        match (takeDigits r3).2 with
        | p :: r5 =>
          if p = '.' then
            let d2 := (takeDigits r5).1
            if d2 = [] then none
            else
              match (takeDigits r5).2 with
              | m :: r7 =>
                if m = 'm' then some (w1 ++ '/' :: (w2 ++ d1 ++ '.' :: (d2 ++ ['m'])), r7)
                else none
              | [] => none
          else none
        | [] => none
    else none
  | [] => none

/-- The shared imperial core `\d+['′]\s*\d+["″']{1,2}`: (group, rest). -/
def imperialAt (l : List Char) : Option (List Char × List Char) :=
  let d1 := (takeDigits l).1
  if d1 = [] then none
  else
    match (takeDigits l).2 with
    | q :: r2 =>
      if isQuote1 q then
        let w := (takeWScs r2).1
        let r3 := (takeWScs r2).2
        let d2 := (takeDigits r3).1
        if d2 = [] then none
        else
          let r4 := (takeDigits r3).2
          let qs := (takeQuotes r4).1
          let r5 := (takeQuotes r4).2
          if qs = [] then none
          else some (d1 ++ q :: (w ++ d2 ++ qs), r5)
      else none
    | [] => none

/-- Pattern 1: imperial with optional metric tail. -/
def pat1At (l : List Char) : Option (List Char) :=
  match imperialAt l with
  | some (g, r) =>
    match metricTail r with
    | some (t, _) => some (g ++ t)
    | none => some g
  | none => none

/-- Pattern 2: imperial only. -/
def pat2At (l : List Char) : Option (List Char) :=
  (imperialAt l).map (fun x => x.1)

/-- Pattern 3: `\d+-\d+`. -/
def pat3At (l : List Char) : Option (List Char) :=
  let d1 := (takeDigits l).1
  if d1 = [] then none
  else
    match (takeDigits l).2 with
    | q :: r2 =>
      if q = '-' then
        let d2 := (takeDigits r2).1
        if d2 = [] then none else some (d1 ++ '-' :: d2)
      else none
    | [] => none

/-- Pattern 4: `\d+\.\d+m`. -/
def pat4At (l : List Char) : Option (List Char) :=
  let d1 := (takeDigits l).1
  if d1 = [] then none
  else
    match (takeDigits l).2 with
    | q :: r2 =>
      if q = '.' then
        let d2 := (takeDigits r2).1
        if d2 = [] then none
        else
          match (takeDigits r2).2 with
          | m :: _ =>
            if m = 'm' then some (d1 ++ '.' :: (d2 ++ ['m'])) else none
          | [] => none
      else none
    | [] => none

/-- Pattern 5: `Height:\s*([^,\n]+)`; the group may reclaim one trailing
whitespace character when the greedy `\s*` leaves nothing for it. -/
def pat5At (l : List Char) : Option (List Char) :=
  if "Height:".toList.isPrefixOf l then
    let r1 := l.drop 7
    let w := r1.takeWhile pyWS
    let r2 := r1.dropWhile pyWS
    let g := r2.takeWhile (fun c => !(c = ',' || c = '\n'))
    if g ≠ [] then some g
    else
      match w.getLast? with
      | some c => some [c]
      | none => none
  else none

/-- Leftmost-position regex search driver. -/
def firstMatch (f : List Char → Option (List Char)) : List Char → Option (List Char)
  | [] => f []
  | c :: rest =>
    match f (c :: rest) with
    | some g => some g
    | none => firstMatch f rest

/-- `FieldExtractors.extract_height`: the five patterns in order, the
first match's group stripped. -/
def extract_height (text : String) : String :=
  if text = "" then ""
  else
    match firstMatch pat1At text.toList with
    | some g => String.mk (pyStrip g)
    | none =>
      match firstMatch pat2At text.toList with
      | some g => String.mk (pyStrip g)
      | none =>
        match firstMatch pat3At text.toList with
        | some g => String.mk (pyStrip g)
        | none =>
          match firstMatch pat4At text.toList with
          | some g => String.mk (pyStrip g)
          | none =>
            match firstMatch pat5At text.toList with
            | some g => String.mk (pyStrip g)
            | none => ""

/-! ### Shape characterizations of the height-pattern groups

These predicates describe the exact form of a matched group of
patterns 1, 3 and 4; they are what a matched group satisfies
(inversion) and enough to re-match the group when the normalizer is
run again on its own output (soundness). -/

/-- A non-empty run of decimal digits. -/
def DigSeq (l : List Char) : Prop := l ≠ [] ∧ ∀ c ∈ l, c.isDigit = true

/-- A (possibly empty) run of whitespace. -/
def WsSeq (l : List Char) : Prop := ∀ c ∈ l, pyWS c = true

/-- The shape of a pattern-3 group: `\d+-\d+`. -/
def Pat3Shape (g : List Char) : Prop :=
  ∃ d1 d2, DigSeq d1 ∧ DigSeq d2 ∧ g = d1 ++ '-' :: d2

/-- The shape of a pattern-4 group: `\d+\.\d+m`. -/
def Pat4Shape (g : List Char) : Prop :=
  ∃ d1 d2, DigSeq d1 ∧ DigSeq d2 ∧ g = d1 ++ '.' :: (d2 ++ ['m'])

/-- The shape of the optional metric tail `\s*/\s*\d+\.\d+m`. -/
def TailShape (t : List Char) : Prop :=
  ∃ w1 w2 e1 e2, WsSeq w1 ∧ WsSeq w2 ∧ DigSeq e1 ∧ DigSeq e2 ∧
    t = w1 ++ '/' :: (w2 ++ (e1 ++ '.' :: (e2 ++ ['m'])))

/-- The shape of a pattern-1 group: the imperial core with an optional
metric tail. -/
def Pat1Shape (g : List Char) : Prop :=
  ∃ d1 q w d2 qs t, DigSeq d1 ∧ isQuote1 q = true ∧ WsSeq w ∧ DigSeq d2 ∧
    qs ≠ [] ∧ qs.length ≤ 2 ∧ (∀ c ∈ qs, isQuote2 c = true) ∧
    (t = [] ∨ TailShape t) ∧
    g = d1 ++ q :: (w ++ (d2 ++ (qs ++ t)))

/-! ## FieldExtractors.clean_text and clean_field_labels -/

/-- Noise literals stripped by `clean_text`. -/
def noiseLits1 : List (List Char) :=
  ["Full Bio".toList, "Instagram".toList, "Twitter".toList, "Opens in a new window".toList]

/-- One labelled-prefix pattern of `clean_field_labels`:
`\bLIT\.?:\s*` (case-insensitive), or `^LIT\.?:\s*` when anchored. -/
structure LabelPat where
  lit : List Char
  optDot : Bool
  anchored : Bool

/-- The eleven label patterns, in the order applied by the source. -/
def labelPats : List LabelPat :=
  [⟨"Class".toList, false, false⟩, ⟨"Hometown".toList, false, false⟩,
   ⟨"High school".toList, false, false⟩,
   ⟨"Previous College".toList, false, false⟩, ⟨"Previous School".toList, false, false⟩,
   ⟨"Ht".toList, true, false⟩, ⟨"Pos".toList, true, false⟩,
   ⟨"Major".toList, false, false⟩,
   ⟨"High school".toList, false, true⟩, ⟨"Hometown".toList, false, true⟩,
   ⟨"No".toList, true, true⟩]

/-- Case-insensitive literal match: returns the rest after the literal. -/
def litDropCI : List Char → List Char → Option (List Char)
  | [], s => some s
  | _ :: _, [] => none
  | a :: as, c :: cs => if c.toLower = a.toLower then litDropCI as cs else none

/-- Match one label pattern at the current position; returns the rest of
the text after the consumed `LIT\.?:\s*`. -/
def matchLabelAt (p : LabelPat) (s : List Char) : Option (List Char) :=
  match litDropCI p.lit s with
  | none => none
  | some r1 =>
    let r2 := match r1 with
      | '.' :: rr => if p.optDot then rr else r1
      | _ => r1
    match r2 with
    | ':' :: r3 => some (r3.dropWhile pyWS)
    | _ => none

/-- Remove all matches of an unanchored label pattern, scanning left to
right with `\b` tracked through the previous character; fueled by the
text length (every match consumes at least two characters). -/
def subLabelGo (p : LabelPat) : Nat → Bool → List Char → List Char
  | 0, _, s => s
  | _ + 1, _, [] => []
  | fuel + 1, prevW, c :: rest =>
    if prevW then c :: subLabelGo p fuel (isWordChar c) rest
    else
      match matchLabelAt p (c :: rest) with
      | some r => subLabelGo p fuel false r
      | none => c :: subLabelGo p fuel (isWordChar c) rest

/-- `re.sub(r"\bLIT\.?:\s*", "", text, flags=IGNORECASE)`. -/
def subLabelAll (p : LabelPat) (s : List Char) : List Char :=
  subLabelGo p s.length false s

/-- `re.sub(r"^LIT\.?:\s*", "", text, flags=IGNORECASE)`: a single
anchored match at the start. -/
def subLabelAnchored (p : LabelPat) (s : List Char) : List Char :=
  match matchLabelAt p s with
  | some r => r
  | none => s

/-- Apply one label pattern and strip, as the source does after each `re.sub`. -/
def applyLabelPat (s : List Char) (p : LabelPat) : List Char :=
  pyStrip (if p.anchored then subLabelAnchored p s else subLabelAll p s)

/-- `FieldExtractors.clean_field_labels`. -/
def clean_field_labels (text : String) : String :=
  if text = "" then text
  else String.mk (labelPats.foldl applyLabelPat text.toList)

/-- `FieldExtractors.clean_text`: strip + whitespace collapse, trailing
noise removal, then label removal. -/
def clean_text (text : String) : String :=
  if text = "" then ""
  else
    let c1 := collapseWS (pyStrip text.toList)
    let c2 := noiseCut noiseLits1 c1
    clean_field_labels (String.mk c2)

/-! ## The Player record -/

/-- The `Player` dataclass of the source. -/
structure Player where
  team_id : Int
  team : String
  season : String
  division : String
  player_id : Option String
  name : String
  jersey : String
  position : String
  height : String
  year : String
  major : String
  hometown : String
  high_school : String
  previous_school : String
  url : String
deriving Repr, DecidableEq

/-! ## URLBuilder.build_roster_url and the season-range alternate -/

/-- `try: int(season) … except ValueError` conversion of a season to a
two-year range, e.g. `2025 → 2025-26`; `none` when Python would raise. -/
def seasonRange (season : String) : Option String :=
  match intParse season with
  | some y => some (toString y ++ "-" ++ last2 (toString (y + 1)))
  | none => none

/-- The `season.split('-')[1]`-based year extraction shared by the
clemson/kentucky branches (two-digit end years are expanded to four). -/
def endYearOf (season : String) : String :=
  if season.toList.contains '-' then
    let p := String.mk ((splitOnChar '-' season.toList).getD 1 [])
    if p.length = 2 then "20" ++ p else p
  else season

/-- `URLBuilder.build_roster_url` (the source first rebinds
`base_url = base_url.rstrip('/')`; here the stripped base is written
out in each branch). -/
def build_roster_url (base_url season url_format : String) : String :=
  if containsSubS (rstripSlash base_url) "/roster/" then rstripSlash base_url
  else if url_format = "default" then rstripSlash base_url ++ "/roster/" ++ season
  else if url_format = "wsoc_index" then
    if containsSubS (rstripSlash base_url) "/index" then
      replaceAllS (rstripSlash base_url) "/index" ("/roster/" ++ season)
    else rstripSlash base_url ++ "/roster/" ++ season
  else if url_format = "wsoc_plain" then rstripSlash base_url ++ "/roster/" ++ season
  else if url_format = "ucf_table" then
    rstripSlash base_url ++ "/roster/season/" ++ season ++ "?view=table"
  else if url_format = "virginia_season" then
    match seasonRange season with
    | some r => rstripSlash base_url ++ "/roster/season/" ++ r ++ "/"
    | none => rstripSlash base_url ++ "/roster/season/" ++ season ++ "/"
  else if url_format = "clemson_roster" then
    rstripSlash base_url ++ "/roster/season/" ++ endYearOf season ++ "/?view=table"
  else if url_format = "kentucky_season" then
    rstripSlash base_url ++ "/roster/season/" ++ endYearOf season ++ "/"
  else if url_format = "wsoc_season_range" then
    match seasonRange season with
    | some r => replaceAllS (rstripSlash base_url) "/index" "" ++ "/" ++ r ++ "/roster"
    | none => replaceAllS (rstripSlash base_url) "/index" "" ++ "/" ++ season ++ "/roster"
  else rstripSlash base_url ++ "/roster/" ++ season

/-- The `base_url[:-6]` step of `_build_season_range_url` (strip a
trailing "/index"). -/
def stripIndexSuffix (b : String) : String :=
  if pyEndsWith b "/index" then b.dropRight 6 else b

/-- `StandardScraper._build_season_range_url`. -/
def build_season_range_url (base_url season : String) : String :=
  match seasonRange season with
  | some r => stripIndexSuffix (rstripSlash base_url) ++ "/" ++ r ++ "/roster"
  | none => stripIndexSuffix (rstripSlash base_url) ++ "/" ++ season ++ "/roster"

/-! ## StandardScraper.scrape_team: the URL retry ladder

Network and extraction are oracles: `fetch` maps a URL to an HTTP
status and `extractN` maps a (successfully fetched) URL to the number
of players extracted from its page.  `scrapeRequests` returns the
sequence of URLs requested by lines 653–703 of the source, in order. -/

/-- The list of URLs requested by the retry ladder of `scrape_team`. -/
def scrapeRequests (fetch : String → Nat) (extractN : String → Nat)
    (base_url season url_format : String) : List String :=
  let roster0 := build_roster_url base_url season url_format
  let s0 := fetch roster0
  let step1 : List String × String × Nat :=
    if s0 = 404 then
      let alt := build_season_range_url base_url season
      if alt ≠ roster0 then ([roster0, alt], alt, fetch alt)
      else ([roster0], roster0, s0)
    else ([roster0], roster0, s0)
  let step2 : List String × String × Nat :=
    if step1.2.2 ≠ 200 then
      let ns := rstripSlash base_url ++ "/roster/"
      if ns ≠ step1.2.1 then (step1.1 ++ [ns], ns, fetch ns)
      else step1
    else step1
  if step2.2.2 ≠ 200 then step2.1
  else if extractN step2.2.1 = 0 ∧ ¬(pyEndsWith step2.2.1 "/roster/") then
    let ns := rstripSlash base_url ++ "/roster/"
    if ns ≠ step2.2.1 then step2.1 ++ [ns] else step2.1
  else step2.1

/-! ## StandardScraper._validate_players

Coverage comparisons `count / total * 100 < k` are modelled exactly as
`100 * count < k * total`. -/

/-- Number of players with a non-empty value of the given field. -/
def countField (ps : List Player) (f : Player → String) : Nat :=
  (ps.filter (fun p => f p ≠ "")).length

/-- The position/year block of `_validate_players` (reached once the
name and jersey checks have passed). -/
def vpPosYear (total nameC jerseyC posC yearC : Nat) : Bool :=
  if 100 * posC < 70 * total ∨ 100 * yearC < 70 * total then
    if 15 ≤ total ∧ (50 * total ≤ 100 * posC ∨ 50 * total ≤ 100 * yearC) then true
    else if 15 ≤ total ∧ 80 * total ≤ 100 * nameC ∧ 50 * total ≤ 100 * jerseyC then true
    else false
  else true

/-- `StandardScraper._validate_players`. -/
def validate_players (ps : List Player) : Bool :=
  if ps.isEmpty then false
  else
    let total := ps.length
    let nameC := countField ps Player.name
    let jerseyC := countField ps Player.jersey
    let posC := countField ps Player.position
    let yearC := countField ps Player.year
    if 100 * nameC < 80 * total then false
    else if 100 * jerseyC < 80 * total then
      if 15 ≤ total ∧ 50 * total ≤ 100 * jerseyC then
        vpPosYear total nameC jerseyC posC yearC
      else false
    else vpPosYear total nameC jerseyC posC yearC

/-! ## StandardScraper._extract_players (Sidearm list items)

A `li.sidearm-roster-player` item is modelled by the element texts the
code reads from it; `none` models a `find` that returned `None`. -/

/-- An `<a href=…>` inside a name heading. -/
structure NameLink where
  text : String
  href : String
deriving Repr, DecidableEq

/-- A name heading (`h3` or `h2`): its optional link and its own text. -/
structure NameElem where
  link : Option NameLink
  text : String
deriving Repr, DecidableEq

/-- A span/div with its class list and text (for the position fallback scans). -/
structure ClassedElem where
  classes : List String
  text : String
deriving Repr, DecidableEq

/-- One Sidearm roster list item, holding the sub-elements located by
the extractor (field names follow the CSS selectors used). -/
structure SidearmItem where
  jerseySpan : Option String
  h3 : Option NameElem
  h2 : Option NameElem
  posLongShort : Option String
  posDivBold : Option (Option String)
  spans : List ClassedElem
  divs : List ClassedElem
  heightSpan : Option String
  yearSpan : Option String
  majorSpan : Option String
  hometownSpan : Option String
  custom2Span : Option String
  highschoolSpan : Option String
  custom3Span : Option String
  prevSchoolSpan : Option String
  custom1Span : Option String
deriving Repr, DecidableEq

/-- Absolute profile URL construction against the team domain. -/
def profileFromHref (domain href : String) : String :=
  if href.startsWith "http" then href
  else if href.startsWith "/" then "https://" ++ domain ++ href
  else "https://" ++ domain ++ "/" ++ href

/-- The class-keyword position fallback loop: scan elements whose
joined, lowered class string contains "position" or "pos", overwriting
the accumulator and stopping at the first non-empty extraction. -/
def posFromElems : List ClassedElem → String → String
  | [], acc => acc
  | e :: rest, acc =>
    let cls := lowerS (String.intercalate " " e.classes)
    if containsSubS cls "position" || containsSubS cls "pos" then
      let p := extract_position e.text
      if p ≠ "" then p else posFromElems rest p
    else posFromElems rest acc

/-- Position resolution for one Sidearm item: canonical selector, then
the bold span of the position div, then the span scan, then the div scan. -/
def itemPosition (it : SidearmItem) : String :=
  match it.posLongShort with
  | some t => extract_position t
  | none =>
    match it.posDivBold with
    | some (some t) => extract_position t
    | _ =>
      let p := posFromElems it.spans ""
      if p ≠ "" then p else posFromElems it.divs p

/-- One iteration of the `_extract_players` loop; `none` models `continue`. -/
def sidearmPlayerOfItem (team_id : Int) (team season division domain : String)
    (it : SidearmItem) : Option Player :=
  let jersey := match it.jerseySpan with
    | some t => clean_text t
    | none => ""
  match it.h3.orElse (fun _ => it.h2) with
  | none => none
  | some ne =>
    let np : String × String :=
      match ne.link with
      | some l => (clean_text l.text, profileFromHref domain l.href)
      | none => (clean_text ne.text, "")
    let height := match it.heightSpan with
      | some t => extract_height t
      | none => ""
    let year := match it.yearSpan with
      | some t => normalize_academic_year t
      | none => ""
    let major := match it.majorSpan with
      | some t => clean_text t
      | none => ""
    let hometown := match it.hometownSpan.orElse (fun _ => it.custom2Span) with
      | some t => clean_text t
      | none => ""
    let high_school := match it.highschoolSpan.orElse (fun _ => it.custom3Span) with
      | some t => clean_text t
      | none => ""
    let previous_school := match it.prevSchoolSpan.orElse (fun _ => it.custom1Span) with
      | some t => clean_text t
      | none => ""
    some ⟨team_id, team, season, division, none, np.1, jersey, itemPosition it,
          height, year, major, hometown, high_school, previous_school, np.2⟩

/-- `StandardScraper._extract_players` over the located roster items. -/
def extract_players (team_id : Int) (team season division domain : String)
    (items : List SidearmItem) : List Player :=
  items.filterMap (sidearmPlayerOfItem team_id team season division domain)

/-! ## StandardScraper._extract_players_from_kentucky_table -/

/-- A table cell: its text and an optional `<a href=…>`. -/
structure Cell where
  text : String
  link : Option NameLink
deriving Repr, DecidableEq

/-- The header map built from the `<th>` texts (later headers overwrite
earlier assignments, as Python dict writes do). -/
structure HeaderIdx where
  jersey : Option Nat
  name : Option Nat
  position : Option Nat
  height : Option Nat
  year : Option Nat
  hometown : Option Nat
  high_school : Option Nat
  previous_school : Option Nat
deriving Repr, DecidableEq

/-- One header cell's contribution to the header map. -/
def headerAssign (m : HeaderIdx) (i : Nat) (h : String) : HeaderIdx :=
  let ht := lowerS (pyStripS h)
  if containsSubS ht "number" || containsSubS ht "no" || containsSubS ht "#" then
    {m with jersey := some i}
  else if containsSubS ht "name" then {m with name := some i}
  else if containsSubS ht "position" || containsSubS ht "pos" then {m with position := some i}
  else if containsSubS ht "height" || containsSubS ht "ht" then {m with height := some i}
  else if containsSubS ht "class" || containsSubS ht "yr" || containsSubS ht "year" then
    {m with year := some i}
  else if containsSubS ht "hometown" || containsSubS ht "home" then {m with hometown := some i}
  else if containsSubS ht "high" && containsSubS ht "school" then {m with high_school := some i}
  else if containsSubS ht "previous" then {m with previous_school := some i}
  else m

/-- Build the header map from the header texts. -/
def buildHeaderIdx (headers : List String) : HeaderIdx :=
  (headers.enum.foldl (fun m ih => headerAssign m ih.1 ih.2)
    ⟨none, none, none, none, none, none, none, none⟩)

/-- Field extraction for a mapped column, guarded by `idx < len(cells)`. -/
def cellFieldAt (cells : List Cell) (oi : Option Nat) (norm : String → String) : String :=
  match oi with
  | some i =>
    match cells.get? i with
    | some c => norm c.text
    | none => ""
  | none => ""

/-- One row of the Kentucky-style table; `none` models `continue`. -/
def kentuckyRow (team_id : Int) (team season division domain : String)
    (m : HeaderIdx) (cells : List Cell) : Option Player :=
  if cells.length < 2 then none
  else
    let np : String × String :=
      match m.name with
      | some i =>
        match cells.get? i with
        | some cell =>
          match cell.link with
          | some l => (clean_text l.text, profileFromHref domain l.href)
          | none => (clean_text cell.text, "")
        | none => ("", "")
      | none => ("", "")
    if np.1 = "" then none
    else
      some ⟨team_id, team, season, division, none, np.1,
            cellFieldAt cells m.jersey clean_text,
            cellFieldAt cells m.position extract_position,
            cellFieldAt cells m.height extract_height,
            cellFieldAt cells m.year (fun t => normalize_academic_year (pyStripS t)),
            "",
            cellFieldAt cells m.hometown clean_text,
            cellFieldAt cells m.high_school clean_text,
            cellFieldAt cells m.previous_school clean_text,
            np.2⟩

/-- `StandardScraper._extract_players_from_kentucky_table` over the
located table (header texts and body rows). -/
def extract_players_from_kentucky_table (team_id : Int)
    (team season division domain : String)
    (headers : List String) (rows : List (List Cell)) : List Player :=
  rows.filterMap (kentuckyRow team_id team season division domain (buildHeaderIdx headers))

/-! ## StandardScraper._extract_players_from_cards (s-person-card grid) -/

/-- One `div.s-person-card`, holding the element texts the code reads. -/
structure PersonCard where
  nameElem : Option String
  thumbnail : Option String
  bioStats : List String
  locationItems : List String
  ctaHref : Option String
deriving Repr, DecidableEq

/-- Jersey resolution from the thumbnail text ("Jersey Number N"). -/
def cardJersey (thumb : Option String) : String :=
  match thumb with
  | some t =>
    if containsSubS t "Jersey Number" then pyStripS (replaceAllS t "Jersey Number" "")
    else ""
  | none => ""

/-- The bio-stats loop: later matching stats overwrite earlier ones. -/
def cardBioFold (acc : String × String × String) (stat : String) : String × String × String :=
  let t := pyStripS stat
  if t.startsWith "Position" then
    (extract_position (pyStripS (replaceAllS t "Position" "")), acc.2.1, acc.2.2)
  else if t.startsWith "Academic Year" then
    (acc.1, normalize_academic_year (pyStripS (replaceAllS t "Academic Year" "")), acc.2.2)
  else if t.startsWith "Height" then
    (acc.1, acc.2.1, extract_height (pyStripS (replaceAllS t "Height" "")))
  else acc

/-- The location-items loop. -/
def cardLocFold (acc : String × String) (item : String) : String × String :=
  let t := pyStripS item
  if t.startsWith "Hometown" then (pyStripS (replaceAllS t "Hometown" ""), acc.2)
  else if t.startsWith "Last School" then (acc.1, pyStripS (replaceAllS t "Last School" ""))
  else acc

/-- One card of `_extract_players_from_cards`; `none` models the
"no name or no jersey" skip. -/
def cardPlayer (team_id : Int) (team season division domain : String)
    (c : PersonCard) : Option Player :=
  let name := match c.nameElem with
    | some t => clean_text t
    | none => ""
  let jersey := cardJersey c.thumbnail
  let pyh := c.bioStats.foldl cardBioFold ("", "", "")
  let loc := c.locationItems.foldl cardLocFold ("", "")
  let profile_url := match c.ctaHref with
    | some href => profileFromHref domain href
    | none => ""
  if name = "" ∨ jersey = "" then none
  else
    some ⟨team_id, team, season, division, none, name, jersey, pyh.1, pyh.2.2, pyh.2.1,
          "", loc.1, loc.2, "", profile_url⟩

/-- `StandardScraper._extract_players_from_cards`. -/
def extract_players_from_cards (team_id : Int) (team season division domain : String)
    (cards : List PersonCard) : List Player :=
  cards.filterMap (cardPlayer team_id team season division domain)

/-! ## StandardScraper._enhance_sidearm_positions_from_bios -/

/-- A span on a bio page, with its class list and text. -/
structure SpanElem where
  classes : List String
  text : String
deriving Repr, DecidableEq

/-- A `span.sidearm-roster-player-field-label` with the spans of its
parent div (`none` when `find_parent('div')` yields nothing). -/
structure BioLabel where
  text : String
  parentSpans : Option (List SpanElem)
deriving Repr, DecidableEq

/-- A fetched bio page: the located field labels. -/
structure BioPage where
  labels : List BioLabel
deriving Repr, DecidableEq

/-- Outcome of fetching one bio URL: a raised request exception, or a
response with a status and a parsed page. -/
inductive FetchOutcome where
  | err : FetchOutcome
  | resp (status : Nat) (page : BioPage) : FetchOutcome
deriving Repr, DecidableEq

/-- First span of the parent div that is not the label span. -/
def firstValueSpan : List SpanElem → Option SpanElem
  | [] => none
  | s :: rest =>
    if s.classes.contains "sidearm-roster-player-field-label" then firstValueSpan rest
    else some s

/-- The label loop of the bio-position extraction: each position label
with a parent overwrites the accumulator with the extraction from the
first value span; the loop stops at the first non-empty result. -/
def bioPositionLoop : List BioLabel → String → String
  | [], acc => acc
  | l :: rest, acc =>
    if containsSubS (lowerS (pyStripS l.text)) "position" then
      let acc2 := match l.parentSpans with
        | some spans =>
          match firstValueSpan spans with
          | some sp => extract_position (pyStripS sp.text)
          | none => acc
        | none => acc
      if acc2 ≠ "" then acc2 else bioPositionLoop rest acc2
    else bioPositionLoop rest acc

/-- Enhancement of a single player (one iteration of the loop; the
`except` branch and every failure path return the player unchanged). -/
def enhanceOne (fetch : String → FetchOutcome) (p : Player) : Player :=
  if p.position ≠ "" ∨ p.url = "" then p
  else
    match fetch p.url with
    | .err => p
    | .resp status page =>
      if status ≠ 200 then p
      else {p with position := bioPositionLoop page.labels p.position}

/-- `StandardScraper._enhance_sidearm_positions_from_bios`. -/
def enhance_sidearm_positions_from_bios (fetch : String → FetchOutcome)
    (ps : List Player) : List Player :=
  if ps.isEmpty then ps
  else if (ps.filter (fun p => p.position = "")).length = 0 then ps
  else ps.map (enhanceOne fetch)

/-- Players counted by the trigger in `scrape_team`: empty position
with a non-empty profile URL. -/
def missingPosCount (ps : List Player) : Nat :=
  (ps.filter (fun p => p.position = "" ∧ p.url ≠ "")).length

/-- The trigger condition of `scrape_team` lines 712–716
(`missing / len > 0.2` modelled exactly as `5 * missing > len`). -/
def shouldEnhancePositions (ps : List Player) : Bool :=
  if missingPosCount ps > 0 ∧ ps.length > 0 then
    decide (5 * missingPosCount ps > ps.length)
  else false

/-! ## Specification-side acceptance predicate for the validator

Stated from the words of the specification (section 4.4), to be proved
equivalent to `validate_players`: non-empty list, name coverage ≥ 80 %,
jersey coverage ≥ 80 % (≥ 50 % for rosters of at least 15), position
and year coverage each ≥ 70 % (each ≥ 50 % for rosters of at least 15),
with the final large-roster fallback on name ≥ 80 % and jersey ≥ 50 %. -/

/-- The acceptance rule exactly as the specification states it. -/
def validatorClaimAccept (ps : List Player) : Prop :=
  ps ≠ [] ∧
  80 * ps.length ≤ 100 * countField ps Player.name ∧
  (80 * ps.length ≤ 100 * countField ps Player.jersey ∨
    (15 ≤ ps.length ∧ 50 * ps.length ≤ 100 * countField ps Player.jersey)) ∧
  ((70 * ps.length ≤ 100 * countField ps Player.position ∧
      70 * ps.length ≤ 100 * countField ps Player.year) ∨
    (15 ≤ ps.length ∧ 50 * ps.length ≤ 100 * countField ps Player.position ∧
      50 * ps.length ≤ 100 * countField ps Player.year) ∨
    (15 ≤ ps.length ∧ 80 * ps.length ≤ 100 * countField ps Player.name ∧
      50 * ps.length ≤ 100 * countField ps Player.jersey))

instance (ps : List Player) : Decidable (validatorClaimAccept ps) := by
  unfold validatorClaimAccept; infer_instance

/-- Test fixture: a player with the given name, jersey, position and class. -/
def testPlayer (name jersey pos yr : String) : Player :=
  ⟨457, "Team", "2025", "I", none, name, jersey, pos, "", yr, "", "", "", "", ""⟩

/-- The 20-record roster of the validator example: 18 named, 18
jerseyed, 10 positioned, 10 classed. -/
def roster20 : List Player :=
  List.replicate 10 (testPlayer "A. Player" "1" "D" "Freshman") ++
  List.replicate 8 (testPlayer "A. Player" "1" "" "") ++
  List.replicate 2 (testPlayer "" "" "" "")

/-- The same roster with only 12 named records (still 18 jerseyed,
10 positioned, 10 classed). -/
def roster20few : List Player :=
  List.replicate 10 (testPlayer "A. Player" "1" "D" "Freshman") ++
  List.replicate 2 (testPlayer "A. Player" "1" "" "") ++
  List.replicate 6 (testPlayer "" "1" "" "") ++
  List.replicate 2 (testPlayer "" "" "" "")

/-! ## Helper lemmas -/

/-- A token returned by the abbreviation scan is one of the listed tokens. -/
theorem abbrevScan_mem (cs : List Char) :
    ∀ (b : Bool) (t : String), abbrevScan b cs = some t → t ∈ posTokens := by
  induction cs with
  | nil => intro b t h; simp [abbrevScan] at h
  | cons c rest ih =>
    intro b t h
    rw [abbrevScan] at h
    split at h
    · exact ih _ _ h
    · cases hf : abbrevFindHere (c :: rest) with
      | none => rw [hf] at h; exact ih _ _ h
      | some u =>
        rw [hf] at h
        cases h
        exact List.mem_of_find?_eq_some hf

/-- Normalization sends every listed token to one of the four codes. -/
theorem posNormalize_mem : ∀ t ∈ posTokens, posNormalize t ∈ (["GK", "D", "M", "F"] : List String) := by
  decide

/-- The substring fallback only produces the four codes or the empty string. -/
theorem posFallback_mem (t : List Char) :
    posFallback t ∈ (["GK", "D", "M", "F", ""] : List String) := by
  unfold posFallback posFallbackUp
  split_ifs <;> simp

/-! ## Claim C1: the result validator -/

/-- C1: `_validate_players` accepts exactly the rosters described by the
specification: non-empty, name coverage ≥ 80 %, jersey coverage ≥ 80 %
(relaxed to ≥ 50 % for rosters of at least 15 records), and position and
year coverage each ≥ 70 %, relaxed to ≥ 50 % for rosters of at least 15
records, with a final fallback accepting any roster of at least 15
records with name ≥ 80 % and jersey ≥ 50 %; the 20-record example with
coverage 90/90/50/50 is accepted, the variant with 60 % names is
rejected, and the empty list is rejected. -/
theorem validator_accept_iff :
    (∀ ps : List Player, validate_players ps = true ↔ validatorClaimAccept ps) ∧
    validate_players roster20 = true ∧
    validate_players roster20few = false ∧
    validate_players ([] : List Player) = false := by
  refine ⟨?_, by decide, by decide, by decide⟩
  intro ps
  cases ps with
  | nil => simp [validate_players, validatorClaimAccept]
  | cons a l =>
    have h0 : (0:Nat) < (a :: l).length := by simp
    simp only [validate_players, vpPosYear, validatorClaimAccept, List.isEmpty_cons,
      Bool.false_eq_true, if_false, ne_eq, reduceCtorEq, not_false_eq_true, true_and]
    split_ifs <;> simp_all <;> omega

/-- Witness for C1 at a concrete accepted roster. -/
theorem validator_accept_iff_witness : validate_players roster20 = true :=
  (validator_accept_iff.1 roster20).mpr (by decide)

/-! ## Claim C3: position normalization -/

/-- C3: `extract_position` is total into {GK, D, M, F, ""}; the fixed
vocabulary maps as documented (Striker → F, CB → D, Winger → F); when no
abbreviation matches, a GOALIE substring (any case) yields GK, and
inputs matching neither heuristic yield the empty string. -/
theorem extract_position_spec :
    (∀ s, extract_position s ∈ (["GK", "D", "M", "F", ""] : List String)) ∧
    extract_position "Striker" = "F" ∧
    extract_position "CB" = "D" ∧
    extract_position "Winger" = "F" ∧
    (∀ s, abbrevScan false (pyStrip s.toList) = none →
      containsSub "GOALIE".toList ((pyStrip s.toList).map Char.toUpper) = true →
      extract_position s = "GK") ∧
    (∀ s, abbrevScan false (pyStrip s.toList) = none →
      (∀ w ∈ fallbackWords, containsSub w.toList ((pyStrip s.toList).map Char.toUpper) = false) →
      extract_position s = "") := by
  refine ⟨?_, by decide, by decide, by decide, ?_, ?_⟩
  · intro s
    unfold extract_position
    split_ifs with hs
    · simp
    · cases hscan : abbrevScan false (pyStrip s.toList) with
      | none => simp only [hscan]; exact posFallback_mem _
      | some tok =>
        simp only [hscan]
        have htok := abbrevScan_mem _ _ _ hscan
        have h4 := posNormalize_mem tok htok
        simp only [List.mem_cons, List.not_mem_nil, or_false] at h4 ⊢
        tauto
  · intro s hscan hsub
    by_cases hs : s = ""
    · subst hs
      have : containsSub "GOALIE".toList ((pyStrip ("" : String).toList).map Char.toUpper) = false := by
        decide
      rw [this] at hsub
      cases hsub
    · unfold extract_position
      rw [if_neg hs, hscan]
      unfold posFallback posFallbackUp
      rw [hsub]
      simp
  · intro s hscan hw
    by_cases hs : s = ""
    · subst hs; decide
    · unfold extract_position
      rw [if_neg hs, hscan]
      unfold posFallback posFallbackUp
      have h1 := hw "GOALKEEPER" (by decide)
      have h2 := hw "GOALIE" (by decide)
      have h3 := hw "KEEPER" (by decide)
      have h4 := hw "DEFENDER" (by decide)
      have h5 := hw "DEFENCE" (by decide)
      have h6 := hw "DEFENSE" (by decide)
      have h7 := hw "BACK" (by decide)
      have h8 := hw "MIDFIELDER" (by decide)
      have h9 := hw "MIDFIELD" (by decide)
      have h10 := hw "FORWARD" (by decide)
      have h11 := hw "STRIKER" (by decide)
      have h12 := hw "ATTACKER" (by decide)
      have h13 := hw "ATTACK" (by decide)
      rw [h1, h2, h3, h4, h5, h6, h7, h8, h9, h10, h11, h12, h13]
      simp

/-- Witness for C3: the substring fallback fires on a lower-case input. -/
theorem extract_position_spec_witness : extract_position "the goalie era" = "GK" :=
  extract_position_spec.2.2.2.2.1 "the goalie era" (by decide) (by decide)

/-! ## Claim C7: academic-year normalization -/

/-- C7: `normalize_academic_year` maps every input whose trimmed form is
a key of the fixed table to its long form and returns every other input
unchanged; it is idempotent on long-form input. -/
theorem normalize_academic_year_spec :
    (∀ s v, yearMap.lookup (pyStripS s) = some v → normalize_academic_year s = v) ∧
    (∀ s, yearMap.lookup (pyStripS s) = none → normalize_academic_year s = s) ∧
    normalize_academic_year "Jr." = "Junior" ∧
    normalize_academic_year "R-So" = "Redshirt Sophomore" ∧
    normalize_academic_year "Freshman" = "Freshman" := by
  refine ⟨?_, ?_, by decide, by decide, by decide⟩
  · intro s v h
    by_cases hs : s = ""
    · subst hs
      have hnone : yearMap.lookup (pyStripS "") = none := by decide
      rw [hnone] at h
      cases h
    · unfold normalize_academic_year
      rw [if_neg hs, h]
  · intro s h
    by_cases hs : s = ""
    · subst hs; rfl
    · unfold normalize_academic_year
      rw [if_neg hs, h]

/-- Witness for C7 at concrete inputs for both lookup outcomes. -/
theorem normalize_academic_year_spec_witness :
    normalize_academic_year " So. " = "Sophomore" ∧
    normalize_academic_year "Grad Student" = "Grad Student" :=
  ⟨normalize_academic_year_spec.1 " So. " "Sophomore" (by decide),
   normalize_academic_year_spec.2.1 "Grad Student" (by decide)⟩

/-! ## Claim C4: hometown / school splitting -/

/-- C4: `parse_hometown_school` strips trailing noise and collapses
whitespace; text without `/` is stored entirely as hometown; otherwise
the first segment is the hometown, the second is previous school when
it contains a college indicator and high school otherwise, and a third
segment is always the previous school; the documented example holds. -/
theorem parse_hometown_school_spec :
    (∀ s, (phsClean s).contains '/' = false →
      parse_hometown_school s = ⟨String.mk (phsClean s), "", ""⟩) ∧
    (∀ s, (phsClean s).contains '/' = true →
      parse_hometown_school s =
        (let parts := (splitOnChar '/' (phsClean s)).map (fun p => String.mk (pyStrip p))
         ⟨parts.getD 0 "",
          if 1 < parts.length ∧ hasCollegeIndicator (parts.getD 1 "") = false then
            parts.getD 1 "" else "",
          if 2 < parts.length then parts.getD 2 ""
          else if 1 < parts.length ∧ hasCollegeIndicator (parts.getD 1 "") = true then
            parts.getD 1 "" else ""⟩)) ∧
    parse_hometown_school "Austin, TX / Westlake High School" =
      ⟨"Austin, TX", "Westlake High School", ""⟩ ∧
    parse_hometown_school "Austin, TX / Westlake High School / Baylor University" =
      ⟨"Austin, TX", "Westlake High School", "Baylor University"⟩ ∧
    parse_hometown_school "Boston, MA / Xaverian Instagram" =
      ⟨"Boston, MA", "Xaverian", ""⟩ := by
  refine ⟨?_, ?_, by decide, by decide, by decide⟩
  · intro s h
    by_cases hs : s = ""
    · subst hs; decide
    · unfold parse_hometown_school
      rw [if_neg hs, if_neg (by rw [h]; exact Bool.false_ne_true)]
  · intro s h
    by_cases hs : s = ""
    · subst hs
      have : (phsClean "").contains '/' = false := by decide
      rw [this] at h
      cases h
    · unfold parse_hometown_school
      rw [if_neg hs, if_pos h]
      simp only [HometownInfo.mk.injEq]
      refine ⟨by simp, ?_, ?_⟩ <;> split_ifs <;> simp_all <;> omega

/-- Witness for C4 at a three-segment input. -/
theorem parse_hometown_school_spec_witness :
    parse_hometown_school "City, ST / Prep Academy / Tech Institute" =
      ⟨"City, ST", "Prep Academy", "Tech Institute"⟩ := by
  have h := parse_hometown_school_spec.2.1 "City, ST / Prep Academy / Tech Institute" (by decide)
  rw [h]
  decide

/-! ## Claim C9: bio-page position enrichment -/

/-- C9: enrichment is triggered exactly when more than 20 % of a
non-empty record list has an empty position with a non-empty profile
URL; the enrichment maps each record independently (same records, same
order), a failed or non-200 bio fetch leaves that record unchanged, and
enrichment touches nothing but the position field. -/
theorem bio_enrichment_spec :
    (∀ ps : List Player,
      shouldEnhancePositions ps = true ↔ (ps ≠ [] ∧ 5 * missingPosCount ps > ps.length)) ∧
    (∀ (fetch : String → FetchOutcome) (ps : List Player),
      enhance_sidearm_positions_from_bios fetch ps = ps.map (enhanceOne fetch)) ∧
    (∀ (fetch : String → FetchOutcome) (p : Player),
      fetch p.url = FetchOutcome.err → enhanceOne fetch p = p) ∧
    (∀ (fetch : String → FetchOutcome) (p : Player) (st : Nat) (pg : BioPage),
      fetch p.url = FetchOutcome.resp st pg → st ≠ 200 → enhanceOne fetch p = p) ∧
    (∀ (fetch : String → FetchOutcome) (p : Player),
      enhanceOne fetch p = {p with position := (enhanceOne fetch p).position}) := by
  refine ⟨?_, ?_, ?_, ?_, ?_⟩
  · intro ps
    have hlen := List.length_pos (l := ps)
    unfold shouldEnhancePositions
    split_ifs with hcond
    · simp only [decide_eq_true_eq, true_iff, iff_true]
      constructor
      · intro h5
        exact ⟨hlen.mp hcond.2, h5⟩
      · intro h
        exact h.2
    · simp only [Bool.false_eq_true, false_iff, not_and]
      intro hne h5
      exact hcond ⟨by omega, hlen.mpr hne⟩
  · intro fetch ps
    unfold enhance_sidearm_positions_from_bios
    split_ifs with h1 h2
    · rw [List.isEmpty_iff.mp h1]
      rfl
    · symm
      have hpt : ∀ p ∈ ps, enhanceOne fetch p = id p := by
        intro p hp
        have hpos := (List.filter_eq_nil_iff.mp (List.length_eq_zero.mp h2)) p hp
        simp only [decide_eq_true_eq] at hpos
        unfold enhanceOne
        rw [if_pos (Or.inl hpos)]
        rfl
      rw [List.map_congr_left hpt, List.map_id]
    · rfl
  · intro fetch p hf
    unfold enhanceOne
    split_ifs with h1
    · rfl
    · rw [hf]
  · intro fetch p st pg hf hst
    unfold enhanceOne
    split_ifs with h1
    · rfl
    · rw [hf]
      simp [hst]
  · intro fetch p
    unfold enhanceOne
    split_ifs with h1
    · rfl
    · cases hf : fetch p.url with
      | err => rfl
      | resp st pg =>
        dsimp only
        split_ifs with hst
        · rfl
        · rfl

/-- Witness for C9: trigger and failure-tolerance at concrete inputs. -/
theorem bio_enrichment_spec_witness :
    shouldEnhancePositions [testPlayer "A" "1" "" "", {testPlayer "B" "2" "" "" with url := "https://x/bio"}] = true ∧
    enhanceOne (fun _ => FetchOutcome.err) {testPlayer "B" "2" "" "" with url := "https://x/bio"} =
      {testPlayer "B" "2" "" "" with url := "https://x/bio"} ∧
    enhanceOne (fun _ => FetchOutcome.resp 404 ⟨[]⟩) {testPlayer "B" "2" "" "" with url := "https://x/bio"} =
      {testPlayer "B" "2" "" "" with url := "https://x/bio"} :=
  ⟨(bio_enrichment_spec.1 _).mpr (by decide),
   bio_enrichment_spec.2.2.1 _ _ rfl,
   bio_enrichment_spec.2.2.2.1 _ _ 404 ⟨[]⟩ rfl (by decide)⟩

/-! ## Claim C10: the s-person-card extractor -/

/-- C10: every record emitted by the card extractor has a non-empty name
and a non-empty jersey; a card without a jersey badge is dropped even
when it carries a valid name and profile link. -/
theorem cards_emit_only_named_jerseyed :
    (∀ (tid : Int) (t se d dom : String) (cards : List PersonCard) (p : Player),
      p ∈ extract_players_from_cards tid t se d dom cards →
      p.name ≠ "" ∧ p.jersey ≠ "") ∧
    extract_players_from_cards 1 "T" "2025" "I" "example.edu"
      [⟨some "Jane Doe", none, [], [], some "/roster/jane"⟩] = [] := by
  refine ⟨?_, by decide⟩
  intro tid t se d dom cards p hp
  unfold extract_players_from_cards at hp
  rcases List.mem_filterMap.mp hp with ⟨c, _, hc⟩
  simp only [cardPlayer] at hc
  split_ifs at hc with hng
  push_neg at hng
  cases hc
  exact hng

/-- Witness for C10 at a concrete emitted card. -/
theorem cards_emit_only_named_jerseyed_witness :
    (⟨1, "T", "2025", "I", none, "Jane Doe", "7", "", "", "", "", "", "", "", ""⟩ : Player).name ≠ "" ∧
    (⟨1, "T", "2025", "I", none, "Jane Doe", "7", "", "", "", "", "", "", "", ""⟩ : Player).jersey ≠ "" :=
  cards_emit_only_named_jerseyed.1 1 "T" "2025" "I" "example.edu"
    [⟨some "Jane Doe", some "Jersey Number 7", [], [], none⟩] _ (by decide)

/-! ## Claim C2: nameless records -/

/-- C2 counterexample: in the Sidearm list extractor, an item whose name
heading exists but whose text cleans to the empty string is emitted as a
record with a blank name, contradicting "never appended as a record with
a blank name field". -/
theorem blank_name_record_emitted :
    (extract_players 1 "T" "2025" "I" "example.edu"
      [⟨none, some ⟨none, " "⟩, none, none, none, [], [], none, none, none, none,
        none, none, none, none, none⟩]).map Player.name = [""] := by
  decide

/-- C2 as amended: an item with no name heading at all (`h3`/`h2` both
missing) is skipped entirely by the Sidearm list extractor, and every
record emitted by the Kentucky table extractor has a non-empty name; but
a Sidearm item whose located name heading resolves to the empty string
is still emitted with a blank name. -/
theorem nameless_item_handling :
    (∀ (tid : Int) (t se d dom : String) (it : SidearmItem) (items : List SidearmItem),
      it.h3 = none → it.h2 = none →
      extract_players tid t se d dom (it :: items) = extract_players tid t se d dom items) ∧
    (∀ (tid : Int) (t se d dom : String) (headers : List String) (rows : List (List Cell))
      (p : Player), p ∈ extract_players_from_kentucky_table tid t se d dom headers rows →
      p.name ≠ "") := by
  constructor
  · intro tid t se d dom it items h3 h2
    unfold extract_players
    rw [List.filterMap_cons]
    have : sidearmPlayerOfItem tid t se d dom it = none := by
      unfold sidearmPlayerOfItem
      rw [h3, h2]
      rfl
    rw [this]
  · intro tid t se d dom headers rows p hp
    unfold extract_players_from_kentucky_table at hp
    rcases List.mem_filterMap.mp hp with ⟨cells, _, hc⟩
    simp only [kentuckyRow] at hc
    split_ifs at hc with hlen hname
    cases hc
    exact hname

/-- Witness for C2 (amended): skipping at a concrete heading-less item
and a concrete Kentucky row. -/
theorem nameless_item_handling_witness :
    extract_players 1 "T" "2025" "I" "example.edu"
      [⟨some "7", none, none, none, none, [], [], none, none, none, none,
        none, none, none, none, none⟩] = [] ∧
    (⟨1, "T", "2025", "I", none, "Jane Doe", "", "", "", "", "", "", "", "", ""⟩ : Player).name ≠ "" :=
  ⟨nameless_item_handling.1 1 "T" "2025" "I" "example.edu" _ [] rfl rfl,
   nameless_item_handling.2 1 "T" "2025" "I" "example.edu" ["Name"]
     [[⟨"Jane Doe", none⟩, ⟨"", none⟩]] _ (by decide)⟩

/-! ## Claim C5: the URL builder -/

/-- C5 counterexample: a base URL that contains "/roster/" (with a
trailing slash) is not returned unchanged — the code first strips the
trailing slash, no longer sees "/roster/", and applies the default
pattern on top of the existing roster path. -/
theorem roster_base_not_returned_unchanged :
    containsSubS "https://example.edu/sports/wsoc/roster/" "/roster/" = true ∧
    build_roster_url "https://example.edu/sports/wsoc/roster/" "2025" "default" =
      "https://example.edu/sports/wsoc/roster/roster/2025" ∧
    build_roster_url "https://example.edu/sports/wsoc/roster/" "2025" "default" ≠
      "https://example.edu/sports/wsoc/roster/" := by
  refine ⟨by decide, by decide, by decide⟩

/-- C5 as amended: the "/roster/" check is made after trailing slashes
are stripped, and it is the stripped base that is then returned
unchanged; otherwise the default family yields
`{stripped base}/roster/{season}` and the season-range family converts
a single year to a two-year range, as in the documented examples. -/
theorem build_roster_url_spec :
    (∀ base season fmt, containsSubS (rstripSlash base) "/roster/" = true →
      build_roster_url base season fmt = rstripSlash base) ∧
    (∀ base season, containsSubS (rstripSlash base) "/roster/" = false →
      build_roster_url base season "default" = rstripSlash base ++ "/roster/" ++ season) ∧
    build_roster_url "https://example.edu/sports/wsoc" "2025" "wsoc_season_range" =
      "https://example.edu/sports/wsoc/2025-26/roster" ∧
    build_roster_url "https://example.edu/sports/wsoc" "2025" "default" =
      "https://example.edu/sports/wsoc/roster/2025" := by
  refine ⟨?_, ?_, by decide, by decide⟩
  · intro base season fmt h
    unfold build_roster_url
    rw [if_pos h]
  · intro base season h
    unfold build_roster_url
    rw [if_neg (by rw [h]; exact Bool.false_ne_true), if_pos rfl]

/-- Witness for C5 at concrete bases for both general conjuncts. -/
theorem build_roster_url_spec_witness :
    build_roster_url "https://x.edu/sports/wsoc/roster/2024" "2025" "ucf_table" =
      "https://x.edu/sports/wsoc/roster/2024" ∧
    build_roster_url "https://x.edu/sports/wsoc/" "2025" "default" =
      "https://x.edu/sports/wsoc/roster/2025" :=
  ⟨build_roster_url_spec.1 "https://x.edu/sports/wsoc/roster/2024" "2025" "ucf_table" (by decide),
   build_roster_url_spec.2.1 "https://x.edu/sports/wsoc/" "2025" (by decide)⟩

/-! ## Claim C6: the orchestrator retry ladder -/

/-- Length bookkeeping for `replaceAllGo`: some number `k` of
occurrences is replaced, each trading `pat.length` for `rep.length`. -/
theorem replaceAllGo_length (pat rep : List Char) :
    ∀ (fuel : Nat) (l : List Char), l.length ≤ fuel →
      ∃ k, (replaceAllGo pat rep fuel l).length + k * pat.length =
        l.length + k * rep.length := by
  intro fuel
  induction fuel with
  | zero =>
    intro l hl
    rw [List.length_eq_zero.mp (Nat.le_zero.mp hl)]
    exact ⟨0, by simp [replaceAllGo]⟩
  | succ n ih =>
    intro l hl
    cases l with
    | nil => exact ⟨0, by simp [replaceAllGo]⟩
    | cons c rest =>
      rw [replaceAllGo]
      split_ifs with hm
      · have hple : pat.length ≤ (c :: rest).length :=
          (List.isPrefixOf_iff_prefix.mp hm.2).length_le
        have hp1 : 0 < pat.length := List.length_pos.mpr hm.1
        obtain ⟨k, hk⟩ := ih ((c :: rest).drop pat.length)
          (by simp only [List.length_drop]; omega)
        refine ⟨k + 1, ?_⟩
        rw [List.length_append, Nat.succ_mul, Nat.succ_mul]
        simp only [List.length_drop] at hk
        omega
      · obtain ⟨k, hk⟩ := ih rest (by simpa using Nat.le_of_succ_le_succ hl)
        exact ⟨k, by simp only [List.length_cons]; omega⟩

/-- Appending a non-slash-final literal never equals appending
"/roster/": the last characters differ. -/
theorem append_roster_ne_noseason (x y : String) :
    x ++ "/roster" ≠ y ++ "/roster/" := by
  intro h
  have := congrArg (fun s : String => s.data.getLast?) h
  simp only [String.data_append, List.getLast?_append] at this
  cases this

/-- String inequality from a length difference. -/
theorem str_ne_of_length_ne {x y : String} (h : x.length ≠ y.length) : x ≠ y :=
  fun heq => h (congrArg String.length heq)

/-- Under a four-character season, the primary roster URL never
coincides with the bare no-season URL `{base}/roster/`. -/
theorem primary_ne_noseason (base season fmt : String) (hs : season.length = 4) :
    build_roster_url base season fmt ≠ rstripSlash base ++ "/roster/" := by
  have l8 : ("/roster/" : String).length = 8 := rfl
  have l15 : ("/roster/season/" : String).length = 15 := rfl
  have l11 : ("?view=table" : String).length = 11 := rfl
  have l12 : ("/?view=table" : String).length = 12 := rfl
  have l1 : ("/" : String).length = 1 := rfl
  unfold build_roster_url
  split_ifs with h1 h2 h3 hidx h4 h5 h6 h7 h8 h9
  · apply str_ne_of_length_ne
    simp only [String.length_append, l8]
    omega
  · apply str_ne_of_length_ne
    simp only [String.length_append, l8, hs]
    omega
  · intro heq
    obtain ⟨k, hk⟩ := replaceAllGo_length "/index".toList ("/roster/" ++ season).toList
      (rstripSlash base).toList.length (rstripSlash base).toList (le_refl _)
    have hlen := congrArg String.length heq
    simp only [replaceAllS, String.length_mk, String.length_append, l8, replaceAll] at hlen
    have h6len : ("/index".toList).length = 6 := by decide
    have h12len : (("/roster/" ++ season).toList).length = 12 := by
      show ("/roster/" ++ season).length = 12
      rw [String.length_append, l8, hs]
    have hbl : (rstripSlash base).toList.length = (rstripSlash base).length := rfl
    rw [h6len, h12len] at hk
    rw [← hbl] at hlen
    rw [hlen] at hk
    omega
  · apply str_ne_of_length_ne
    simp only [String.length_append, l8, hs]
    omega
  · apply str_ne_of_length_ne
    simp only [String.length_append, l8, hs]
    omega
  · apply str_ne_of_length_ne
    simp only [String.length_append, l8, l11, hs]
    omega
  · rcases hr : seasonRange season with _ | r <;> simp only [hr] <;>
      apply str_ne_of_length_ne <;>
      simp only [String.length_append, l8, l15, l1, hs] <;> omega
  · apply str_ne_of_length_ne
    simp only [String.length_append, l8, l15, l12]
    omega
  · apply str_ne_of_length_ne
    simp only [String.length_append, l8, l15, l1]
    omega
  · rcases hr : seasonRange season with _ | r <;> simp only [hr] <;>
      exact append_roster_ne_noseason _ _
  · apply str_ne_of_length_ne
    simp only [String.length_append, l8, hs]
    omega

/-- The season-range alternate never coincides with the bare no-season
URL: it ends in "roster", not in a slash. -/
theorem alt_ne_noseason (base season base2 : String) :
    build_season_range_url base season ≠ rstripSlash base2 ++ "/roster/" := by
  unfold build_season_range_url
  rcases hr : seasonRange season with _ | r <;> simp only [hr] <;>
    exact append_roster_ne_noseason _ _

/-- Python `endswith` holds on a literal suffix just appended. -/
theorem pyEndsWith_append (x y : String) : pyEndsWith (x ++ y) y = true := by
  unfold pyEndsWith
  rw [List.isSuffixOf_iff_suffix]
  show y.data <:+ (x ++ y).data
  rw [String.data_append]
  exact List.suffix_append _ _

/-- The four possible request sequences of the retry ladder. -/
theorem scrapeRequests_cases (fetch extractN : String → Nat) (base season fmt : String) :
    scrapeRequests fetch extractN base season fmt = [build_roster_url base season fmt] ∨
    scrapeRequests fetch extractN base season fmt =
      [build_roster_url base season fmt, rstripSlash base ++ "/roster/"] ∨
    (scrapeRequests fetch extractN base season fmt =
      [build_roster_url base season fmt, build_season_range_url base season] ∧
      build_season_range_url base season ≠ build_roster_url base season fmt) ∨
    (scrapeRequests fetch extractN base season fmt =
      [build_roster_url base season fmt, build_season_range_url base season,
        rstripSlash base ++ "/roster/"] ∧
      build_season_range_url base season ≠ build_roster_url base season fmt) := by
  simp only [scrapeRequests]
  split_ifs <;> simp_all

/-- C6 counterexample: a primary fetch returning status 500 (non-200,
non-404) skips the season-range alternate entirely and goes straight to
the bare no-season URL, so "any non-success status causes exactly one
season-range attempt" fails. -/
theorem ladder_skips_range_on_500 :
    scrapeRequests
      (fun u => if u = "https://example.edu/sports/wsoc/roster/2025" then 500 else 200)
      (fun _ => 20) "https://example.edu/sports/wsoc" "2025" "default" =
      ["https://example.edu/sports/wsoc/roster/2025",
       "https://example.edu/sports/wsoc/roster/"] ∧
    build_season_range_url "https://example.edu/sports/wsoc" "2025" =
      "https://example.edu/sports/wsoc/2025-26/roster" ∧
    "https://example.edu/sports/wsoc/2025-26/roster" ∉
      scrapeRequests
        (fun u => if u = "https://example.edu/sports/wsoc/roster/2025" then 500 else 200)
        (fun _ => 20) "https://example.edu/sports/wsoc" "2025" "default" := by
  refine ⟨by decide, by decide, by decide⟩

/-- C6 as amended: a primary fetch returning 404 causes exactly one
season-range alternate attempt before the bare no-season fallback; any
other non-success status skips the season-range step and goes directly
to the bare `{base}/roster/` URL; and (for four-character seasons) no
already-tried URL is ever requested a second time during the ladder. -/
theorem scrape_ladder_spec :
    ∀ (fetch extractN : String → Nat) (base season fmt : String),
      (fetch (build_roster_url base season fmt) = 404 →
        build_season_range_url base season ≠ build_roster_url base season fmt →
        (scrapeRequests fetch extractN base season fmt).take 2 =
          [build_roster_url base season fmt, build_season_range_url base season]) ∧
      (fetch (build_roster_url base season fmt) ≠ 200 →
        fetch (build_roster_url base season fmt) ≠ 404 →
        rstripSlash base ++ "/roster/" ≠ build_roster_url base season fmt →
        scrapeRequests fetch extractN base season fmt =
          [build_roster_url base season fmt, rstripSlash base ++ "/roster/"]) ∧
      (season.length = 4 → (scrapeRequests fetch extractN base season fmt).Nodup) := by
  intro fetch extractN base season fmt
  refine ⟨?_, ?_, ?_⟩
  · intro h404 hne
    simp only [scrapeRequests]
    rw [if_pos h404, if_pos hne]
    split_ifs <;> simp
  · intro hn200 hn404 hne
    simp only [scrapeRequests]
    rw [if_neg hn404, if_pos hn200, if_pos hne]
    split_ifs <;> simp_all [pyEndsWith_append]
  · intro hs
    have hpn := primary_ne_noseason base season fmt hs
    have han := alt_ne_noseason base season base
    rcases scrapeRequests_cases fetch extractN base season fmt with h | h | ⟨h, hne⟩ | ⟨h, hne⟩
    · rw [h]; simp
    · rw [h]
      simp only [List.nodup_cons, List.mem_singleton, List.not_mem_nil,
        not_false_eq_true, List.nodup_nil, and_true]
      exact hpn
    · rw [h]
      simp only [List.nodup_cons, List.mem_singleton, List.not_mem_nil,
        not_false_eq_true, List.nodup_nil, and_true]
      exact fun heq => hne heq.symm
    · rw [h]
      simp only [List.nodup_cons, List.mem_cons, List.mem_singleton, List.not_mem_nil,
        not_false_eq_true, List.nodup_nil, and_true, not_or]
      exact ⟨⟨fun heq => hne heq.symm, hpn⟩, han⟩

/-! ## Claim C8: height-normalization idempotence

Character-class disjointness, re-parsing (soundness) and shape
extraction (inversion) lemmas for the height patterns, leading to the
amended idempotence theorem. -/

/-- A whitespace character is one of the six `\s` characters. -/
theorem ws_cases {c : Char} (h : pyWS c = true) :
    c = ' ' ∨ c = '\t' ∨ c = '\n' ∨ c = '\r' ∨ c = '\x0b' ∨ c = '\x0c' := by
  simp [pyWS] at h
  tauto

/-- A foot-mark character is `'` or `′`. -/
theorem quote1_cases {c : Char} (h : isQuote1 c = true) : c = '\'' ∨ c = '′' := by
  simpa [isQuote1] using h

/-- An inch-mark character is `"`, `″` or `'`. -/
theorem quote2_cases {c : Char} (h : isQuote2 c = true) :
    c = '"' ∨ c = '″' ∨ c = '\'' := by
  simp [isQuote2] at h
  tauto

/-- Foot marks are not digits. -/
theorem quote1_not_digit {c : Char} (h : isQuote1 c = true) : c.isDigit = false := by
  rcases quote1_cases h with rfl | rfl <;> decide

/-- Inch marks are not digits. -/
theorem quote2_not_digit {c : Char} (h : isQuote2 c = true) : c.isDigit = false := by
  rcases quote2_cases h with rfl | rfl | rfl <;> decide

/-- Inch marks are not whitespace. -/
theorem quote2_not_ws {c : Char} (h : isQuote2 c = true) : pyWS c = false := by
  rcases quote2_cases h with rfl | rfl | rfl <;> decide

/-- Whitespace characters are not inch marks. -/
theorem ws_not_quote2 {c : Char} (h : pyWS c = true) : isQuote2 c = false := by
  rcases ws_cases h with rfl | rfl | rfl | rfl | rfl | rfl <;> decide

/-- Whitespace characters are not digits. -/
theorem ws_not_digit {c : Char} (h : pyWS c = true) : c.isDigit = false := by
  rcases ws_cases h with rfl | rfl | rfl | rfl | rfl | rfl <;> decide

/-- Digits are not whitespace. -/
theorem not_ws_of_digit {c : Char} (h : c.isDigit = true) : pyWS c = false := by
  cases hw : pyWS c
  · rfl
  · rw [ws_not_digit hw] at h
    cases h

/-- Digits are not foot marks. -/
theorem not_quote1_of_digit {c : Char} (h : c.isDigit = true) : isQuote1 c = false := by
  cases hq : isQuote1 c
  · rfl
  · rw [quote1_not_digit hq] at h
    cases h

/-- `dropWhile` is the identity when the head does not satisfy the predicate. -/
theorem dropWhile_eq_self_head {p : Char → Bool} {l : List Char}
    (h : ∀ c, l.head? = some c → p c = false) : l.dropWhile p = l := by
  cases l with
  | nil => rfl
  | cons a t =>
    rw [List.dropWhile_cons, if_neg]
    simp [h a rfl]

/-- `takeWhile`/`dropWhile` split an append of a satisfying run and a
rest whose head fails the predicate. -/
theorem takeWhile_all_append {p : Char → Bool} (rest : List Char)
    (h2 : ∀ y, rest.head? = some y → p y = false) :
    ∀ xs : List Char, (∀ x ∈ xs, p x = true) →
      (xs ++ rest).takeWhile p = xs ∧ (xs ++ rest).dropWhile p = rest := by
  intro xs
  induction xs with
  | nil =>
    intro _
    constructor
    · cases rest with
      | nil => rfl
      | cons y t =>
        rw [List.nil_append, List.takeWhile_cons, if_neg]
        simp [h2 y rfl]
    · rw [List.nil_append]
      exact dropWhile_eq_self_head h2
  | cons a xs ih =>
    intro hall
    have ha : p a = true := hall a (by simp)
    have ih2 := ih (fun x hx => hall x (by simp [hx]))
    constructor
    · rw [List.cons_append, List.takeWhile_cons, if_pos ha, ih2.1]
    · rw [List.cons_append, List.dropWhile_cons, if_pos ha, ih2.2]

/-- The quote run returned by `takeQuotes` is all inch marks with length at most 2. -/
theorem takeQuotes_spec (l : List Char) :
    (∀ c ∈ (takeQuotes l).1, isQuote2 c = true) ∧ (takeQuotes l).1.length ≤ 2 := by
  match l with
  | [] => simp [takeQuotes]
  | [c1] =>
    by_cases h : isQuote2 c1 = true <;> simp [takeQuotes, h]
  | c1 :: c2 :: rest =>
    by_cases h1 : isQuote2 c1 = true <;> by_cases h2 : isQuote2 c2 = true <;>
      simp [takeQuotes, h1, h2]

/-- `takeQuotes` consumes exactly a one- or two-character quote run when
the rest does not begin with a quote. -/
theorem takeQuotes_eats {qs rest : List Char}
    (hq : ∀ c ∈ qs, isQuote2 c = true)
    (hr : ∀ c, rest.head? = some c → isQuote2 c = false)
    (hlen : qs.length = 1 ∨ qs.length = 2) :
    takeQuotes (qs ++ rest) = (qs, rest) := by
  rcases hlen with h1 | h2
  · obtain ⟨a, rfl⟩ := List.length_eq_one.mp h1
    have ha : isQuote2 a = true := hq a (by simp)
    cases rest with
    | nil => simp [takeQuotes, ha]
    | cons b t =>
      have hb : isQuote2 b = false := hr b rfl
      simp [takeQuotes, ha, hb]
  · obtain ⟨a, b, rfl⟩ := List.length_eq_two.mp h2
    have ha : isQuote2 a = true := hq a (by simp)
    have hb : isQuote2 b = true := hq b (by simp)
    simp [takeQuotes, ha, hb]

/-- Leftmost search succeeds immediately on a match at the current position. -/
theorem firstMatch_some_of_self (f : List Char → Option (List Char)) (l : List Char)
    (g : List Char) (h : f l = some g) : firstMatch f l = some g := by
  cases l with
  | nil => simpa [firstMatch] using h
  | cons c rest => simp [firstMatch, h]

/-- Leftmost search fails when the matcher fails at every suffix. -/
theorem firstMatch_none_of_all (f : List Char → Option (List Char)) (l : List Char)
    (h : ∀ l', l' <:+ l → f l' = none) : firstMatch f l = none := by
  induction l with
  | nil => simpa [firstMatch] using h [] (List.suffix_refl _)
  | cons c rest ih =>
    rw [firstMatch, h (c :: rest) (List.suffix_refl _)]
    exact ih (fun l' hl' => h l' (hl'.trans (List.suffix_cons c rest)))

/-- A successful leftmost search comes from a match at some suffix. -/
theorem firstMatch_some_elim (f : List Char → Option (List Char)) (l g : List Char)
    (h : firstMatch f l = some g) : ∃ l', l' <:+ l ∧ f l' = some g := by
  induction l with
  | nil => exact ⟨[], List.suffix_refl _, by simpa [firstMatch] using h⟩
  | cons c rest ih =>
    rw [firstMatch] at h
    cases hf : f (c :: rest) with
    | some g2 =>
      rw [hf] at h
      cases h
      exact ⟨c :: rest, List.suffix_refl _, hf⟩
    | none =>
      rw [hf] at h
      obtain ⟨l', hl', hfl⟩ := ih h
      exact ⟨l', hl'.trans (List.suffix_cons c rest), hfl⟩

/-- A match at a suffix makes the leftmost search succeed. -/
theorem firstMatch_isSome_of_suffix {f : List Char → Option (List Char)}
    {l' l g : List Char} (hl : l' <:+ l) (hf : f l' = some g) :
    (firstMatch f l).isSome = true := by
  obtain ⟨pre, rfl⟩ := hl
  induction pre with
  | nil => rw [List.nil_append, firstMatch_some_of_self f l' g hf]; rfl
  | cons c pre ih =>
    rw [List.cons_append, firstMatch]
    cases hfc : f (c :: (pre ++ l')) with
    | some g2 => rfl
    | none => exact ih

/-- Pattern 2 matches only where pattern 1 also matches. -/
theorem pat2At_some_imp {l g : List Char} (h : pat2At l = some g) :
    ∃ g2, pat1At l = some g2 := by
  unfold pat2At at h
  cases hi : imperialAt l with
  | none => rw [hi] at h; cases h
  | some gr =>
    obtain ⟨g0, r⟩ := gr
    unfold pat1At
    rw [hi]
    cases hm : metricTail r with
    | none => exact ⟨g0, by dsimp only; rw [hm]⟩
    | some tr =>
      obtain ⟨t0, r0⟩ := tr
      exact ⟨g0 ++ t0, by dsimp only; rw [hm]⟩

/-- If pattern 1 finds nothing, neither does pattern 2. -/
theorem firstMatch_pat2_none {l : List Char} (h : firstMatch pat1At l = none) :
    firstMatch pat2At l = none := by
  apply firstMatch_none_of_all
  intro l' hl'
  cases hp : pat2At l' with
  | none => rfl
  | some g =>
    obtain ⟨g2, hg2⟩ := pat2At_some_imp hp
    have := firstMatch_isSome_of_suffix hl' hg2
    rw [h] at this
    cases this

/-- Without a foot mark in the text, the imperial core cannot match. -/
theorem imperialAt_none {l : List Char} (h : ∀ c ∈ l, isQuote1 c = false) :
    imperialAt l = none := by
  simp only [imperialAt, takeDigits]
  split_ifs with hd1
  · rfl
  · cases hm : l.dropWhile Char.isDigit with
    | nil => rfl
    | cons q r2 =>
      have hqmem : q ∈ l := (List.dropWhile_sublist _).subset (hm ▸ List.mem_cons_self q r2)
      simp [h q hqmem]

/-- Without a foot mark, pattern 1 cannot match. -/
theorem pat1At_none {l : List Char} (h : ∀ c ∈ l, isQuote1 c = false) :
    pat1At l = none := by
  unfold pat1At
  rw [imperialAt_none h]

/-- Without a dash, pattern 3 cannot match. -/
theorem pat3At_none {l : List Char} (h : '-' ∉ l) : pat3At l = none := by
  simp only [pat3At, takeDigits]
  split_ifs with hd1
  · rfl
  · cases hm : l.dropWhile Char.isDigit with
    | nil => rfl
    | cons q r2 =>
      have hq : ¬q = '-' := by
        intro hq
        subst hq
        exact h ((List.dropWhile_sublist _).subset (hm ▸ List.mem_cons_self _ r2))
      simp [hq]

/-- The head of a list is a member. -/
theorem mem_of_head?_mine {l : List Char} {c : Char} (h : l.head? = some c) : c ∈ l := by
  cases l with
  | nil => cases h
  | cons a t =>
    rw [List.head?_cons, Option.some.injEq] at h
    rw [← h]
    exact List.mem_cons_self _ _

/-- A whole list of satisfying characters is taken by `takeWhile`. -/
theorem takeWhile_all {p : Char → Bool} (l : List Char) (h : ∀ x ∈ l, p x = true) :
    l.takeWhile p = l ∧ l.dropWhile p = [] := by
  have := takeWhile_all_append (p := p) [] (fun y hy => by cases hy) l h
  simpa using this

/-- Strip is the identity when head and last are not whitespace. -/
theorem pyStrip_eq_self_head_last {l : List Char}
    (h1 : ∀ c, l.head? = some c → pyWS c = false)
    (h2 : ∀ c, l.getLast? = some c → pyWS c = false) : pyStrip l = l := by
  unfold pyStrip
  rw [dropWhile_eq_self_head h1,
    dropWhile_eq_self_head (fun c hc => h2 c (by rwa [List.head?_reverse] at hc))]
  exact List.reverse_reverse l

/-- Strip is the identity on whitespace-free text. -/
theorem pyStrip_eq_self_of_no_ws {l : List Char} (h : ∀ c ∈ l, pyWS c = false) :
    pyStrip l = l :=
  pyStrip_eq_self_head_last
    (fun c hc => h c (mem_of_head?_mine hc))
    (fun c hc => h c (List.mem_of_mem_getLast? (by rw [Option.mem_def]; exact hc)))

/-- Inversion for the imperial core: a matched group has the imperial shape. -/
theorem imperialAt_inv {l g r : List Char} (h : imperialAt l = some (g, r)) :
    ∃ d1 q w d2 qs, DigSeq d1 ∧ isQuote1 q = true ∧ WsSeq w ∧ DigSeq d2 ∧
      qs ≠ [] ∧ qs.length ≤ 2 ∧ (∀ c ∈ qs, isQuote2 c = true) ∧
      g = d1 ++ q :: (w ++ d2 ++ qs) := by
  simp only [imperialAt, takeDigits, takeWScs] at h
  split_ifs at h with hd1
  cases hm : l.dropWhile Char.isDigit with
  | nil => rw [hm] at h; cases h
  | cons q r2 =>
    rw [hm] at h
    dsimp only at h
    split_ifs at h with hq hd2 hqs
    simp only [Option.some.injEq, Prod.mk.injEq] at h
    refine ⟨List.takeWhile Char.isDigit l, q, List.takeWhile pyWS r2,
      List.takeWhile Char.isDigit (List.dropWhile pyWS r2),
      (takeQuotes (List.dropWhile Char.isDigit (List.dropWhile pyWS r2))).1,
      ⟨hd1, fun c hc => List.mem_takeWhile_imp hc⟩, hq,
      fun c hc => List.mem_takeWhile_imp hc,
      ⟨hd2, fun c hc => List.mem_takeWhile_imp hc⟩,
      hqs, (takeQuotes_spec _).2, (takeQuotes_spec _).1, h.1.symm⟩

/-- Inversion for the metric tail: the consumed text has the tail shape. -/
theorem metricTail_inv {l t r : List Char} (h : metricTail l = some (t, r)) :
    TailShape t := by
  simp only [metricTail, takeDigits, takeWScs] at h
  cases hm : l.dropWhile pyWS with
  | nil => rw [hm] at h; cases h
  | cons s r2 =>
    rw [hm] at h
    dsimp only at h
    split_ifs at h with hs hd1
    · cases hm2 : List.dropWhile Char.isDigit (List.dropWhile pyWS r2) with
      | nil => rw [hm2] at h; cases h
      | cons p r5 =>
        rw [hm2] at h
        dsimp only at h
        split_ifs at h with hp hd2
        cases hm3 : List.dropWhile Char.isDigit r5 with
        | nil => rw [hm3] at h; cases h
        | cons m r7 =>
          rw [hm3] at h
          dsimp only at h
          split_ifs at h with hmc
          simp only [Option.some.injEq, Prod.mk.injEq] at h
          subst hs hp hmc
          refine ⟨List.takeWhile pyWS l, List.takeWhile pyWS r2,
            List.takeWhile Char.isDigit (List.dropWhile pyWS r2),
            List.takeWhile Char.isDigit r5,
            fun c hc => List.mem_takeWhile_imp hc,
            fun c hc => List.mem_takeWhile_imp hc,
            ⟨hd1, fun c hc => List.mem_takeWhile_imp hc⟩,
            ⟨hd2, fun c hc => List.mem_takeWhile_imp hc⟩, ?_⟩
          rw [← h.1]
          simp [List.append_assoc]

/-- Inversion for pattern 1: a matched group has the pattern-1 shape. -/
theorem pat1At_inv {l g : List Char} (h : pat1At l = some g) : Pat1Shape g := by
  unfold pat1At at h
  cases hi : imperialAt l with
  | none => rw [hi] at h; cases h
  | some gr =>
    obtain ⟨g0, r⟩ := gr
    rw [hi] at h
    dsimp only at h
    obtain ⟨d1, q, w, d2, qs, hd1, hq, hw, hd2, hqs_ne, hqs_len, hqs_q, hg0⟩ :=
      imperialAt_inv hi
    cases hm : metricTail r with
    | none =>
      rw [hm] at h
      cases h
      exact ⟨d1, q, w, d2, qs, [], hd1, hq, hw, hd2, hqs_ne, hqs_len, hqs_q, Or.inl rfl,
        by rw [hg0]; simp [List.append_assoc]⟩
    | some tr =>
      obtain ⟨t0, r0⟩ := tr
      rw [hm] at h
      cases h
      exact ⟨d1, q, w, d2, qs, t0, hd1, hq, hw, hd2, hqs_ne, hqs_len, hqs_q,
        Or.inr (metricTail_inv hm),
        by rw [hg0]; simp [List.append_assoc]⟩

/-- Inversion for pattern 3. -/
theorem pat3At_inv {l g : List Char} (h : pat3At l = some g) : Pat3Shape g := by
  simp only [pat3At, takeDigits] at h
  split_ifs at h with hd1
  cases hm : l.dropWhile Char.isDigit with
  | nil => rw [hm] at h; cases h
  | cons q r2 =>
    rw [hm] at h
    dsimp only at h
    split_ifs at h with hq hd2
    simp only [Option.some.injEq] at h
    subst hq
    exact ⟨List.takeWhile Char.isDigit l, List.takeWhile Char.isDigit r2,
      ⟨hd1, fun c hc => List.mem_takeWhile_imp hc⟩,
      ⟨hd2, fun c hc => List.mem_takeWhile_imp hc⟩, h.symm⟩

/-- Inversion for pattern 4. -/
theorem pat4At_inv {l g : List Char} (h : pat4At l = some g) : Pat4Shape g := by
  simp only [pat4At, takeDigits] at h
  split_ifs at h with hd1
  cases hm : l.dropWhile Char.isDigit with
  | nil => rw [hm] at h; cases h
  | cons q r2 =>
    rw [hm] at h
    dsimp only at h
    split_ifs at h with hq hd2
    cases hm2 : List.dropWhile Char.isDigit r2 with
    | nil => rw [hm2] at h; cases h
    | cons m r5 =>
      rw [hm2] at h
      dsimp only at h
      split_ifs at h with hmc
      simp only [Option.some.injEq] at h
      subst hq
      exact ⟨List.takeWhile Char.isDigit l, List.takeWhile Char.isDigit r2,
        ⟨hd1, fun c hc => List.mem_takeWhile_imp hc⟩,
        ⟨hd2, fun c hc => List.mem_takeWhile_imp hc⟩, h.symm⟩

/-- Soundness of the metric tail: re-parsing a tail-shaped text consumes
all of it. -/
theorem metricTail_sound {t : List Char} (ht : TailShape t) : metricTail t = some (t, []) := by
  obtain ⟨w1, w2, e1, e2, hw1, hw2, he1, he2, rfl⟩ := ht
  obtain ⟨hT1, hD1⟩ := takeWhile_all_append (p := pyWS)
    ('/' :: (w2 ++ (e1 ++ '.' :: (e2 ++ ['m']))))
    (fun y hy => by rw [List.head?_cons, Option.some.injEq] at hy; rw [← hy]; decide)
    w1 hw1
  obtain ⟨hT2, hD2⟩ := takeWhile_all_append (p := pyWS) (e1 ++ '.' :: (e2 ++ ['m']))
    (fun y hy => by
      obtain ⟨a, e1t, rfl⟩ : ∃ a e1t, e1 = a :: e1t := by
        cases e1 with
        | nil => exact absurd rfl he1.1
        | cons a e1t => exact ⟨a, e1t, rfl⟩
      rw [List.cons_append, List.head?_cons, Option.some.injEq] at hy
      rw [← hy]
      exact not_ws_of_digit (he1.2 a (List.mem_cons_self _ _)))
    w2 hw2
  obtain ⟨hT3, hD3⟩ := takeWhile_all_append (p := Char.isDigit) ('.' :: (e2 ++ ['m']))
    (fun y hy => by rw [List.head?_cons, Option.some.injEq] at hy; rw [← hy]; decide)
    e1 he1.2
  obtain ⟨hT4, hD4⟩ := takeWhile_all_append (p := Char.isDigit) ['m']
    (fun y hy => by rw [List.head?_cons, Option.some.injEq] at hy; rw [← hy]; decide)
    e2 he2.2
  simp only [metricTail, takeDigits, takeWScs, hT1, hD1, hT2, hD2, hT3, hD3, hT4, hD4]
  simp [he1.1, he2.1, List.append_assoc]

/-- Soundness of the imperial core: re-parsing an imperial-shaped text
consumes exactly the core and leaves the rest. -/
theorem imperialAt_sound {d1 : List Char} {q : Char} {w d2 qs rest : List Char}
    (hd1 : DigSeq d1) (hq : isQuote1 q = true) (hw : WsSeq w) (hd2 : DigSeq d2)
    (hqs_ne : qs ≠ []) (hqs_len : qs.length ≤ 2) (hqs_q : ∀ c ∈ qs, isQuote2 c = true)
    (hrest : ∀ c, rest.head? = some c → isQuote2 c = false) :
    imperialAt (d1 ++ q :: (w ++ (d2 ++ (qs ++ rest)))) =
      some (d1 ++ q :: (w ++ d2 ++ qs), rest) := by
  obtain ⟨hT1, hD1⟩ := takeWhile_all_append (p := Char.isDigit)
    (q :: (w ++ (d2 ++ (qs ++ rest))))
    (fun y hy => by
      rw [List.head?_cons, Option.some.injEq] at hy
      rw [← hy]
      exact quote1_not_digit hq)
    d1 hd1.2
  obtain ⟨hT2, hD2⟩ := takeWhile_all_append (p := pyWS) (d2 ++ (qs ++ rest))
    (fun y hy => by
      obtain ⟨a, d2t, rfl⟩ : ∃ a d2t, d2 = a :: d2t := by
        cases d2 with
        | nil => exact absurd rfl hd2.1
        | cons a d2t => exact ⟨a, d2t, rfl⟩
      rw [List.cons_append, List.head?_cons, Option.some.injEq] at hy
      rw [← hy]
      exact not_ws_of_digit (hd2.2 a (List.mem_cons_self _ _)))
    w hw
  obtain ⟨hT3, hD3⟩ := takeWhile_all_append (p := Char.isDigit) (qs ++ rest)
    (fun y hy => by
      obtain ⟨a, qst, rfl⟩ : ∃ a qst, qs = a :: qst := by
        cases qs with
        | nil => exact absurd rfl hqs_ne
        | cons a qst => exact ⟨a, qst, rfl⟩
      rw [List.cons_append, List.head?_cons, Option.some.injEq] at hy
      rw [← hy]
      exact quote2_not_digit (hqs_q a (List.mem_cons_self _ _)))
    d2 hd2.2
  have hTQ : takeQuotes (qs ++ rest) = (qs, rest) := by
    apply takeQuotes_eats hqs_q hrest
    have := List.length_pos.mpr hqs_ne
    omega
  simp only [imperialAt, takeDigits, takeWScs, hT1, hD1, hT2, hD2, hT3, hD3, hTQ]
  simp [hd1.1, hd2.1, hqs_ne, hq]

/-- Soundness of pattern 1: the normalizer's output re-matches itself. -/
theorem pat1At_sound {g : List Char} (hg : Pat1Shape g) : pat1At g = some g := by
  obtain ⟨d1, q, w, d2, qs, t, hd1, hq, hw, hd2, hqs_ne, hqs_len, hqs_q, ht, rfl⟩ := hg
  rcases ht with rfl | htail
  · have hrest : ∀ c : Char, ([] : List Char).head? = some c → isQuote2 c = false :=
      fun c hc => by cases hc
    unfold pat1At
    rw [imperialAt_sound hd1 hq hw hd2 hqs_ne hqs_len hqs_q hrest]
    dsimp only
    have hmt : metricTail ([] : List Char) = none := rfl
    rw [hmt]
    simp [List.append_assoc]
  · have hrest : ∀ c, t.head? = some c → isQuote2 c = false := by
      obtain ⟨w1, w2, e1, e2, hw1, hw2, he1, he2, rfl⟩ := htail
      intro c hc
      cases w1 with
      | nil =>
        rw [List.nil_append, List.head?_cons, Option.some.injEq] at hc
        rw [← hc]
        decide
      | cons a w1t =>
        rw [List.cons_append, List.head?_cons, Option.some.injEq] at hc
        rw [← hc]
        exact ws_not_quote2 (hw1 a (List.mem_cons_self _ _))
    unfold pat1At
    rw [imperialAt_sound hd1 hq hw hd2 hqs_ne hqs_len hqs_q hrest]
    dsimp only
    rw [metricTail_sound htail]
    simp [List.append_assoc]

/-- Soundness of pattern 3. -/
theorem pat3At_sound {g : List Char} (hg : Pat3Shape g) : pat3At g = some g := by
  obtain ⟨d1, d2, hd1, hd2, rfl⟩ := hg
  obtain ⟨hT1, hD1⟩ := takeWhile_all_append (p := Char.isDigit) ('-' :: d2)
    (fun y hy => by rw [List.head?_cons, Option.some.injEq] at hy; rw [← hy]; decide)
    d1 hd1.2
  obtain ⟨hT2, hD2⟩ := takeWhile_all d2 hd2.2
  simp only [pat3At, takeDigits, hT1, hD1, hT2, hD2]
  simp [hd1.1, hd2.1]

/-- Soundness of pattern 4. -/
theorem pat4At_sound {g : List Char} (hg : Pat4Shape g) : pat4At g = some g := by
  obtain ⟨d1, d2, hd1, hd2, rfl⟩ := hg
  obtain ⟨hT1, hD1⟩ := takeWhile_all_append (p := Char.isDigit) ('.' :: (d2 ++ ['m']))
    (fun y hy => by rw [List.head?_cons, Option.some.injEq] at hy; rw [← hy]; decide)
    d1 hd1.2
  obtain ⟨hT2, hD2⟩ := takeWhile_all_append (p := Char.isDigit) ['m']
    (fun y hy => by rw [List.head?_cons, Option.some.injEq] at hy; rw [← hy]; decide)
    d2 hd2.2
  simp only [pat4At, takeDigits, hT1, hD1, hT2, hD2]
  simp [hd1.1, hd2.1]

/-- A pattern-3 group contains neither whitespace nor foot marks, and
is non-empty. -/
theorem Pat3Shape_chars {g : List Char} (h : Pat3Shape g) :
    (∀ c ∈ g, pyWS c = false) ∧ (∀ c ∈ g, isQuote1 c = false) ∧ g ≠ [] := by
  obtain ⟨d1, d2, hd1, hd2, rfl⟩ := h
  refine ⟨?_, ?_, by simp⟩
  · intro c hc
    rcases List.mem_append.mp hc with hcd | hcm
    · exact not_ws_of_digit (hd1.2 c hcd)
    · rcases List.mem_cons.mp hcm with rfl | hcd2
      · decide
      · exact not_ws_of_digit (hd2.2 c hcd2)
  · intro c hc
    rcases List.mem_append.mp hc with hcd | hcm
    · exact not_quote1_of_digit (hd1.2 c hcd)
    · rcases List.mem_cons.mp hcm with rfl | hcd2
      · decide
      · exact not_quote1_of_digit (hd2.2 c hcd2)

/-- A pattern-4 group contains no whitespace, no foot marks and no dash,
and is non-empty. -/
theorem Pat4Shape_chars {g : List Char} (h : Pat4Shape g) :
    (∀ c ∈ g, pyWS c = false) ∧ (∀ c ∈ g, isQuote1 c = false) ∧
    ('-' ∉ g) ∧ g ≠ [] := by
  obtain ⟨d1, d2, hd1, hd2, rfl⟩ := h
  have hsplit : ∀ c, c ∈ d1 ++ '.' :: (d2 ++ ['m']) →
      c.isDigit = true ∨ c = '.' ∨ c = 'm' := by
    intro c hc
    rcases List.mem_append.mp hc with hcd | hcm
    · exact Or.inl (hd1.2 c hcd)
    · rcases List.mem_cons.mp hcm with rfl | hcr
      · exact Or.inr (Or.inl rfl)
      · rcases List.mem_append.mp hcr with hcd2 | hcm2
        · exact Or.inl (hd2.2 c hcd2)
        · rcases List.mem_singleton.mp hcm2 with rfl
          exact Or.inr (Or.inr rfl)
  refine ⟨?_, ?_, ?_, by simp⟩
  · intro c hc
    rcases hsplit c hc with hd | rfl | rfl
    · exact not_ws_of_digit hd
    · decide
    · decide
  · intro c hc
    rcases hsplit c hc with hd | rfl | rfl
    · exact not_quote1_of_digit hd
    · decide
    · decide
  · intro hc
    rcases hsplit '-' hc with hd | he | he <;> simp_all

/-- A pattern-1 group neither begins nor ends with whitespace, and is
non-empty. -/
theorem Pat1Shape_ends {g : List Char} (h : Pat1Shape g) :
    (∀ c, g.head? = some c → pyWS c = false) ∧
    (∀ c, g.getLast? = some c → pyWS c = false) ∧ g ≠ [] := by
  obtain ⟨d1, q, w, d2, qs, t, hd1, hq, hw, hd2, hqs_ne, hqs_len, hqs_q, ht, rfl⟩ := h
  refine ⟨?_, ?_, by simp⟩
  · intro c hc
    obtain ⟨a, d1t, rfl⟩ : ∃ a d1t, d1 = a :: d1t := by
      cases d1 with
      | nil => exact absurd rfl hd1.1
      | cons a d1t => exact ⟨a, d1t, rfl⟩
    rw [List.cons_append, List.head?_cons, Option.some.injEq] at hc
    rw [← hc]
    exact not_ws_of_digit (hd1.2 a (List.mem_cons_self _ _))
  · intro c hc
    rcases ht with rfl | htail
    · have hgeq : d1 ++ q :: (w ++ (d2 ++ (qs ++ []))) = (d1 ++ q :: (w ++ d2)) ++ qs := by
        simp [List.append_assoc]
      rw [hgeq, List.getLast?_append] at hc
      cases hql : qs.getLast? with
      | none => exact absurd (List.getLast?_eq_none_iff.mp hql) hqs_ne
      | some c2 =>
        rw [hql] at hc
        have hc2 : c2 = c := by
          have : (some c2).or (d1 ++ q :: (w ++ d2)).getLast? = some c2 := rfl
          rw [this] at hc
          exact Option.some.injEq c2 c ▸ (by cases hc; rfl)
        rw [← hc2]
        exact quote2_not_ws
          (hqs_q c2 (List.mem_of_mem_getLast? (by rw [Option.mem_def]; exact hql)))
    · obtain ⟨w1, w2, e1, e2, hw1, hw2, he1, he2, rfl⟩ := htail
      have hgeq : d1 ++ q :: (w ++ (d2 ++ (qs ++ (w1 ++ '/' :: (w2 ++ (e1 ++ '.' :: (e2 ++ ['m']))))))) =
          (d1 ++ q :: (w ++ (d2 ++ (qs ++ (w1 ++ '/' :: (w2 ++ (e1 ++ '.' :: e2))))))) ++ ['m'] := by
        simp [List.append_assoc]
      rw [hgeq, List.getLast?_concat, Option.some.injEq] at hc
      rw [← hc]
      decide

/-- The two leading height patterns fail on every suffix of quote-free
text. -/
theorem firstMatch_pat1_none_of_no_quote {g : List Char}
    (h : ∀ c ∈ g, isQuote1 c = false) : firstMatch pat1At g = none :=
  firstMatch_none_of_all _ _ (fun _ hl2 => pat1At_none (fun c hc => h c (hl2.subset hc)))

/-- C8 counterexample: the labelled "Height:" fallback is not
idempotent — its output can be free text on which a second run returns
the empty string. -/
theorem extract_height_not_idempotent :
    extract_height (extract_height "Height: x") ≠ extract_height "Height: x" := by
  decide

/-- C8 as amended: the height normalizer is idempotent on every input
matched by one of the literal digit patterns (imperial with optional
metric tail, dash-imperial, or metric); only the labelled "Height:"
fallback can break idempotence. -/
theorem extract_height_idempotent_on_digit_patterns :
    ∀ s : String,
      ((firstMatch pat1At s.toList).isSome = true ∨
        (firstMatch pat3At s.toList).isSome = true ∨
        (firstMatch pat4At s.toList).isSome = true) →
      extract_height (extract_height s) = extract_height s := by
  intro s hsome
  have hsne : s ≠ "" := by
    intro hs
    subst hs
    have e1 : firstMatch pat1At ("" : String).toList = none := rfl
    have e3 : firstMatch pat3At ("" : String).toList = none := rfl
    have e4 : firstMatch pat4At ("" : String).toList = none := rfl
    rcases hsome with hsx | hsx | hsx <;> simp_all
  cases h1 : firstMatch pat1At s.toList with
  | some g =>
    obtain ⟨l1, hl1, hp1⟩ := firstMatch_some_elim _ _ _ h1
    have hshape := pat1At_inv hp1
    obtain ⟨hhead, hlast, hgne⟩ := Pat1Shape_ends hshape
    have hstrip : pyStrip g = g := pyStrip_eq_self_head_last hhead hlast
    have hE1 : extract_height s = String.mk g := by
      unfold extract_height
      rw [if_neg hsne, h1]
      exact congrArg String.mk hstrip
    have hmkne : String.mk g ≠ "" := fun hc => hgne (congrArg String.data hc)
    have htl : (String.mk g).toList = g := rfl
    rw [hE1]
    unfold extract_height
    rw [if_neg hmkne, htl, firstMatch_some_of_self _ _ _ (pat1At_sound hshape)]
    exact congrArg String.mk hstrip
  | none =>
    have h2 : firstMatch pat2At s.toList = none := firstMatch_pat2_none h1
    cases h3 : firstMatch pat3At s.toList with
    | some g =>
      obtain ⟨l3, hl3, hp3⟩ := firstMatch_some_elim _ _ _ h3
      have hshape := pat3At_inv hp3
      obtain ⟨hnws, hnq, hgne⟩ := Pat3Shape_chars hshape
      have hstrip : pyStrip g = g := pyStrip_eq_self_of_no_ws hnws
      have hE1 : extract_height s = String.mk g := by
        unfold extract_height
        rw [if_neg hsne, h1, h2, h3]
        exact congrArg String.mk hstrip
      have hmkne : String.mk g ≠ "" := fun hc => hgne (congrArg String.data hc)
      have htl : (String.mk g).toList = g := rfl
      have hg1 : firstMatch pat1At g = none := firstMatch_pat1_none_of_no_quote hnq
      have hg2 : firstMatch pat2At g = none := firstMatch_pat2_none hg1
      rw [hE1]
      unfold extract_height
      rw [if_neg hmkne, htl, hg1, hg2,
        firstMatch_some_of_self _ _ _ (pat3At_sound hshape)]
      exact congrArg String.mk hstrip
    | none =>
      cases h4 : firstMatch pat4At s.toList with
      | some g =>
        obtain ⟨l4, hl4, hp4⟩ := firstMatch_some_elim _ _ _ h4
        have hshape := pat4At_inv hp4
        obtain ⟨hnws, hnq, hnd, hgne⟩ := Pat4Shape_chars hshape
        have hstrip : pyStrip g = g := pyStrip_eq_self_of_no_ws hnws
        have hE1 : extract_height s = String.mk g := by
          unfold extract_height
          rw [if_neg hsne, h1, h2, h3, h4]
          exact congrArg String.mk hstrip
        have hmkne : String.mk g ≠ "" := fun hc => hgne (congrArg String.data hc)
        have htl : (String.mk g).toList = g := rfl
        have hg1 : firstMatch pat1At g = none := firstMatch_pat1_none_of_no_quote hnq
        have hg2 : firstMatch pat2At g = none := firstMatch_pat2_none hg1
        have hg3 : firstMatch pat3At g = none :=
          firstMatch_none_of_all _ _
            (fun l' hl' => pat3At_none (fun hcm => hnd (hl'.subset hcm)))
        rw [hE1]
        unfold extract_height
        rw [if_neg hmkne, htl, hg1, hg2, hg3,
          firstMatch_some_of_self _ _ _ (pat4At_sound hshape)]
        exact congrArg String.mk hstrip
      | none =>
        rcases hsome with hsx | hsx | hsx <;> simp_all

/-- Witness for C8 (amended) on concrete dash and metric inputs. -/
theorem extract_height_idempotent_witness :
    extract_height (extract_height "6-2") = extract_height "6-2" ∧
    extract_height (extract_height "about 1.88m tall") = extract_height "about 1.88m tall" :=
  ⟨extract_height_idempotent_on_digit_patterns "6-2" (Or.inr (Or.inl (by decide))),
   extract_height_idempotent_on_digit_patterns "about 1.88m tall"
     (Or.inr (Or.inr (by decide)))⟩

/-- Witness for C6 with a concrete 404-then-success oracle. -/
theorem scrape_ladder_spec_witness :
    (scrapeRequests
      (fun u => if u = "https://example.edu/sports/wsoc/roster/2025" then 404 else 200)
      (fun _ => 20) "https://example.edu/sports/wsoc" "2025" "default").take 2 =
      ["https://example.edu/sports/wsoc/roster/2025",
       "https://example.edu/sports/wsoc/2025-26/roster"] ∧
    (scrapeRequests
      (fun u => if u = "https://example.edu/sports/wsoc/roster/2025" then 404 else 200)
      (fun _ => 20) "https://example.edu/sports/wsoc" "2025" "default").Nodup :=
  ⟨(scrape_ladder_spec _ _ "https://example.edu/sports/wsoc" "2025" "default").1
      (by decide) (by decide),
   (scrape_ladder_spec _ _ "https://example.edu/sports/wsoc" "2025" "default").2.2 (by decide)⟩

end Soccer
